import Mathlib

/-!
Verification of the Renovate → Jira agent (decision.py and main.py).

The Python source is shallowly embedded as executable Lean functions over
`List Char` / `String`.  Regular-expression searches are embedded as explicit
left-to-right scanners that reproduce the leftmost-match semantics (with word
boundaries `\b` modelled via the character preceding / following a match);
comments on each definition record the Python function it translates.
HTTP transport is modelled as reliable: the external tracker is a
`JiraState` value whose full-text search index is a function of the issue
fields only (adding a remote link does not change search results, statuses or
issue links, exactly as in Jira).
-/

namespace RenovateJira

/-! ### Character and string helpers -/

/-- Python's `\s` (ASCII range), also used for `str.strip()`. -/
def isSpaceChar (c : Char) : Bool :=
  c = ' ' || c = '\t' || c = '\n' || c = '\r' || c = '\x0b' || c = '\x0c'

/-- Python's regex word character `\w` (ASCII range), used for `\b`. -/
def isWordChar (c : Char) : Bool := c.isAlphanum || c = '_'

def lowerStr (s : String) : String := ⟨s.data.map Char.toLower⟩

def upperStr (s : String) : String := ⟨s.data.map Char.toUpper⟩

/-- Test `leadsWith pat l` : `pat` is an initial segment of `l`. -/
def leadsWith : List Char → List Char → Bool
  | [], _ => true
  | _ :: _, [] => false
  | a :: as, b :: bs => a = b && leadsWith as bs

/-- Python's substring test `needle in hay` (on lists of characters). -/
def occursInL (needle : List Char) : List Char → Bool
  | [] => leadsWith needle []
  | c :: rest => leadsWith needle (c :: rest) || occursInL needle rest

/-- Python's substring test `needle in hay`. -/
def occursIn (needle hay : String) : Bool := occursInL needle.data hay.data

def takeDigits (l : List Char) : List Char := l.takeWhile Char.isDigit

/-- Numeric value of a digit string (Python `int(...)` on a `\d+` group). -/
def natOfDigits (l : List Char) : Nat := l.foldl (fun n c => n * 10 + (c.toNat - 48)) 0

/-- Boundary `\b` on the right edge of a match: next character absent or not a word char. -/
def boundaryAfterL : List Char → Bool
  | [] => true
  | c :: _ => !isWordChar c

/-- Boundary `\b` on the left edge of a match: previous character absent or not a word char. -/
def prevBoundaryB : Option Char → Bool
  | none => true
  | some c => !isWordChar c

/-- Test `startsWithStr p s` : Python `s.startswith(p)`. -/
def startsWithStr (p s : String) : Bool := leadsWith p.data s.data

/-- Python `str.strip()` (whitespace from both ends). -/
def trimL (l : List Char) : List Char :=
  ((l.dropWhile isSpaceChar).reverse.dropWhile isSpaceChar).reverse

def trimStr (s : String) : String := ⟨trimL s.data⟩

/-- Python `str.replace(pat, rep)` (all non-overlapping occurrences, left to
right); the degenerate empty pattern never occurs in the embedded code.  The
fuel argument (initially the length of the scanned list, which never grows)
makes the recursion structural so that concrete instances reduce. -/
def replaceAllAux (pat rep : List Char) : Nat → List Char → List Char
  | _, [] => []
  | 0, l => l
  | fuel + 1, c :: rest =>
    if pat ≠ [] && leadsWith pat (c :: rest) then
      rep ++ replaceAllAux pat rep fuel ((c :: rest).drop pat.length)
    else
      c :: replaceAllAux pat rep fuel rest

def replaceAll (s pat rep : String) : String :=
  ⟨replaceAllAux pat.data rep.data s.data.length s.data⟩

/-! ### decision.py -/

/-- Python `DEFAULT_CRITICAL` from decision.py. -/
def DEFAULT_CRITICAL : List String :=
  ["openssl", "spring-boot", "spring-security", "log4j", "jsonwebtoken",
   "mysql-connector", "postgresql", "hibernate"]

/-- Tail of the CVE pattern after `CVE-`: `\d{4}-\d{4,}\b`.
`\d{4}` demands that the maximal digit run have length exactly 4 (a fifth
digit would sit where the literal `-` must be); the trailing `\d{4,}` is
greedy and shrinking it leaves a digit (a word char) next, so a match requires
the maximal digit run, of length ≥ 4, followed by a word boundary. -/
def cveTailOK (l : List Char) : Bool :=
  decide ((takeDigits l).length = 4) &&
    (match l.drop 4 with
     | h :: rest =>
       (h = '-') && (decide ((takeDigits rest).length ≥ 4) &&
         boundaryAfterL (rest.drop (takeDigits rest).length))
     | [] => false)

/-- A match of `CVE-\d{4}-\d{4,}\b` (case-insensitive) starting exactly here. -/
def cveAt (l : List Char) : Bool :=
  decide ((l.take 3).map Char.toLower = ['c', 'v', 'e']) &&
    (match l.drop 3 with
     | h :: rest => (h = '-') && cveTailOK rest
     | [] => false)

/-- Scanner for `re.search(r"\bCVE-\d{4}-\d{4,}\b", text, re.IGNORECASE)`:
tries every position left to right, tracking the previous character for `\b`. -/
def mentionsCVEAux (prev : Option Char) : List Char → Bool
  | [] => false
  | c :: rest => (prevBoundaryB prev && cveAt (c :: rest)) || mentionsCVEAux (some c) rest

/-- Python `mentions_cve` from decision.py. -/
def mentionsCVE (text : String) : Bool := mentionsCVEAux none text.data

/-- Word-boundary occurrence of a literal word (`\bw\b`). -/
def wordAt (w : List Char) (l : List Char) : Bool :=
  leadsWith w l && boundaryAfterL (l.drop w.length)

/-- Scanner for `re.search(r"\bmajor\b|\bbreaking\b|\bmigration\b", text)`. -/
def anyWordAux (words : List (List Char)) (prev : Option Char) : List Char → Bool
  | [] => false
  | c :: rest =>
    (prevBoundaryB prev && words.any (fun w => wordAt w (c :: rest))) ||
      anyWordAux words (some c) rest

/-- A match of `update\s*=\s*major\b` starting exactly here (the leading `\b`
is handled by the scanner). -/
def updateEqMajorAt (l : List Char) : Bool :=
  leadsWith "update".data l &&
    (let r := (l.drop 6).dropWhile isSpaceChar
     match r with
     | '=' :: r2 =>
       let r3 := r2.dropWhile isSpaceChar
       leadsWith "major".data r3 && boundaryAfterL (r3.drop 5)
     | _ => false)

def updateEqMajorAux (prev : Option Char) : List Char → Bool
  | [] => false
  | c :: rest =>
    (prevBoundaryB prev && updateEqMajorAt (c :: rest)) || updateEqMajorAux (some c) rest

/-- A match of `to\s+v?(\d+)(?:\.\d+)?\b` starting exactly here, returning the
numeric value of group 1.  Group 1 is always the maximal digit run (shrinking
`\d+` puts a digit next, failing both continuations), and the trailing `\b`
reduces to the character right after that run not being a word char (`.` is
not a word char, so the optional `(?:\.\d+)?` cannot rescue or break it). -/
def toVersionMatchAt (l : List Char) : Option Nat :=
  match l with
  | 't' :: 'o' :: rest =>
    let sp := rest.takeWhile isSpaceChar
    if sp = [] then none
    else
      let r1 := rest.drop sp.length
      let r2 := match r1 with
        | 'v' :: t => t
        | _ => r1
      let ds := takeDigits r2
      if ds = [] then none
      else if boundaryAfterL (r2.drop ds.length) then some (natOfDigits ds)
      else none
  | _ => none

/-- Scanner for `re.search(r"\bto\s+v?([0-9]+)(?:\.\d+)?\b", title)`: value of
group 1 of the leftmost match. -/
def toVersionScanAux (prev : Option Char) : List Char → Option Nat
  | [] => none
  | c :: rest =>
    match (if prevBoundaryB prev then toVersionMatchAt (c :: rest) else none) with
    | some n => some n
    | none => toVersionScanAux (some c) rest

/-- Consume up to `k` groups of `\.\d+` (each inner `\d+` is the maximal run). -/
def dropDotGroups : Nat → List Char → List Char
  | 0, l => l
  | Nat.succ k, l =>
    match l with
    | '.' :: rest =>
      let ds := takeDigits rest
      if ds = [] then l else dropDotGroups k (rest.drop ds.length)
    | _ => l

/-- A match of `(\d+)(?:\.\d+){0,2}\s*->\s*(\d+)(?:\.\d+){0,2}\b` starting
exactly here, returning the numeric values of groups 1 and 2.  Both groups are
the maximal digit runs at their positions; the dot groups before the arrow are
forced (a leftover `.` fails `\s*->`), and the trailing `\b` always succeeds
with zero trailing dot groups iff the character after group 2's run is not a
word char (`.` itself is not a word char). -/
def rangeMatchAt (l : List Char) : Option (Nat × Nat) :=
  let d1 := takeDigits l
  if d1 = [] then none
  else
    let r1 := dropDotGroups 2 (l.drop d1.length)
    let r2 := r1.dropWhile isSpaceChar
    match r2 with
    | '-' :: '>' :: r3 =>
      let r4 := r3.dropWhile isSpaceChar
      let d2 := takeDigits r4
      if d2 = [] then none
      else if boundaryAfterL (r4.drop d2.length) then
        some (natOfDigits d1, natOfDigits d2)
      else none
    | _ => none

/-- Scanner for the leftmost match of the version-range pattern (groups of
`re.search(r"\b([0-9]+)(?:\.[0-9]+){0,2}\s*->\s*([0-9]+)(?:\.[0-9]+){0,2}\b", text)`). -/
def rangeScanAux (prev : Option Char) : List Char → Option (Nat × Nat)
  | [] => none
  | c :: rest =>
    match (if prevBoundaryB prev then rangeMatchAt (c :: rest) else none) with
    | some p => some p
    | none => rangeScanAux (some c) rest

def rangeScan (l : List Char) : Option (Nat × Nat) := rangeScanAux none l

/-- Python `is_major_bump` from decision.py. -/
def isMajorBump (title body : String) : Bool :=
  let text := lowerStr (title ++ " " ++ body)
  if anyWordAux ["major".data, "breaking".data, "migration".data] none text.data then true
  else if updateEqMajorAux none text.data then true
  else
    match toVersionScanAux none (lowerStr title).data with
    | some n =>
      if n > 1 then true
      else
        match rangeScan text.data with
        | some (a, b) => decide (a ≠ b)
        | none => false
    | none =>
      match rangeScan text.data with
      | some (a, b) => decide (a ≠ b)
      | none => false

/-- Python `touches_critical_dependency` from decision.py (the set union is modelled
by list concatenation: only membership is observable through `any`). -/
def touchesCriticalDependency (text : String) (criticalDeps : Option (List String)) : Bool :=
  let txt := lowerStr text
  let deps := ((criticalDeps.getD []).map lowerStr) ++ DEFAULT_CRITICAL
  deps.any (fun d => occursIn d txt)

/-- The `create_jira_for` dict: each key may be absent (Python `.get` with a
default).  `none` at the outer level models both a missing and an empty dict
(both are falsy, so `create_jira_for or defaults` yields the defaults, which
agree with the per-key defaults used by `.get`). -/
structure CreateFor where
  security : Option Bool := none
  major : Option Bool := none
  criticalDep : Option Bool := none

/-- Python `create_cfg.get("security", True)` of `needs_jira`. -/
def securityToggle : Option CreateFor → Bool
  | none => true
  | some c => c.security.getD true

/-- Python `create_cfg.get("major", True)` of `needs_jira`. -/
def majorToggle : Option CreateFor → Bool
  | none => true
  | some c => c.major.getD true

/-- Python `create_cfg.get("critical-dep", False)` of `needs_jira`. -/
def criticalToggle : Option CreateFor → Bool
  | none => false
  | some c => c.criticalDep.getD false

/-- The security condition of `needs_jira`:
`mentions_cve(title) or mentions_cve(body) or "security" in labels_set`. -/
def securityTrigger (title body : String) (labels : List String) : Bool :=
  mentionsCVE title || mentionsCVE body || (labels.map lowerStr).contains "security"

/-- Python `needs_jira` from decision.py. -/
def needsJira (title body : String) (labels : List String)
    (criticalDeps : Option (List String)) (createJiraFor : Option CreateFor) :
    Option String × Option String :=
  let text := lowerStr (title ++ " " ++ body)
  if securityTrigger title body labels && securityToggle createJiraFor then
    (some "security", some "Security / CVE detected")
  else if isMajorBump title body && majorToggle createJiraFor then
    (some "major", some "Semver-major or breaking change detected")
  else if touchesCriticalDependency text criticalDeps && criticalToggle createJiraFor then
    (some "critical-dep", some "Updates a critical dependency")
  else (none, none)

/-! ### main.py: configuration and mode guards -/

/-- The ambient environment configuration of main.py (only the fields the
embedded functions read). -/
structure AgentCfg where
  mode : String
  fixTicketLabels : Bool := false
  fixLabelsEvenInDry : Bool := false
  fixTicketPrLinks : Bool := false
  createPrLinks : Bool := false
  jiraFixVersion : String := "CCD CI/CD Release"
  jiraEpicKey : String := "CCD-7071"
  skipStatuses : List String := ["resume development", "resume qa", "resume release"]
  targetStatusPath : List String := []
  targetStatus : String := ""

/-- Python `can_mutate_jira`. -/
def canMutateJira (a : AgentCfg) : Bool := a.mode ≠ "dry-run" || a.fixLabelsEvenInDry

/-- Python `can_add_pr_links`. -/
def canAddPrLinks (a : AgentCfg) : Bool := a.mode ≠ "dry-run"

/-- Python `can_transition_jira`. -/
def canTransitionJira (a : AgentCfg) : Bool := a.mode ≠ "dry-run"

/-! ### main.py: query building -/

/-- Python `_escape_jql`. -/
def escapeJql (t : String) : String :=
  replaceAll (replaceAll t "\\" "\\\\") "\"" "\\\""

/-- A match of the (buggy) `_pr_slug` pattern
`github\\.com/([^/]+/[^/]+/pull/\\d+)` starting exactly here.  In the raw
string the doubled backslashes are regex escapes for a literal backslash, so
the pattern is: `github`, a literal `\`, any one character (`.`, which does
not match a newline), `com/`, then the group `[^/]+/[^/]+/pull/` followed by a
literal `\` and one or more literal `d` characters. -/
def prSlugMatchAt (l : List Char) : Option (List Char) :=
  match l with
  | c0 :: c1 :: c2 :: c3 :: c4 :: c5 :: c6 :: c7 :: c8 :: c9 :: c10 :: c11 :: rest =>
    if (c0 = 'g' && c1 = 'i' && c2 = 't' && c3 = 'h' && c4 = 'u' && c5 = 'b' &&
        c6 = '\\' && c7 ≠ '\n' && c8 = 'c' && c9 = 'o' && c10 = 'm' && c11 = '/') then
      let s1 := rest.takeWhile (fun c => c ≠ '/')
      if s1 = [] then none
      else
        match rest.drop s1.length with
        | '/' :: r2 =>
          let s2 := r2.takeWhile (fun c => c ≠ '/')
          if s2 = [] then none
          else
            match r2.drop s2.length with
            | '/' :: 'p' :: 'u' :: 'l' :: 'l' :: '/' :: '\\' :: r3 =>
              let ds := r3.takeWhile (fun c => c = 'd')
              if ds = [] then none
              else some (s1 ++ '/' :: (s2 ++ '/' :: 'p' :: 'u' :: 'l' :: 'l' :: '/' :: '\\' :: ds))
            | _ => none
        | _ => none
    else none
  | _ => none

def prSlugAux : List Char → Option (List Char)
  | [] => none
  | c :: rest =>
    match prSlugMatchAt (c :: rest) with
    | some g => some g
    | none => prSlugAux rest

/-- Python `_pr_slug`. -/
def prSlug (prUrl : String) : String :=
  match prSlugAux prUrl.data with
  | some g => ⟨g⟩
  | none => ""

/-- One token character of `[A-Za-z0-9_-]`. -/
def isTokChar (c : Char) : Bool := c.isAlphanum || c = '_' || c = '-'

/-- Scanner for `re.findall(r"[A-Za-z0-9][A-Za-z0-9_-]{2,}", text)`:  leftmost,
non-overlapping maximal matches.  When a position yields no match (not
alphanumeric, or fewer than 3 characters) the engine advances one character;
a run shorter than 3 cannot produce a token from any of its positions, so
advancing by one is faithful.  The fuel argument (initially the length of the
scanned list, which never grows) makes the recursion structural so that
concrete instances reduce. -/
def tokenizeAux : Nat → List Char → List String
  | _, [] => []
  | 0, _ => []
  | fuel + 1, c :: rest =>
    if c.isAlphanum then
      let run := rest.takeWhile isTokChar
      if run.length ≥ 2 then ⟨c :: run⟩ :: tokenizeAux fuel (rest.drop run.length)
      else tokenizeAux fuel rest
    else tokenizeAux fuel rest

def tokenize (l : List Char) : List String := tokenizeAux l.length l

/-- The stop-word set of `_build_summary_token_jql`. -/
def stopWords : List String :=
  ["update", "action", "actions", "bump", "dependency", "dependencies", "to", "from"]

def keywordsOf (text : String) : List String :=
  (tokenize text.data).filter (fun t => !stopWords.contains (lowerStr t))

/-- A "strong" token: contains a hyphen or a digit. -/
def isStrongTok (t : String) : Bool := t.data.contains '-' || t.data.any Char.isDigit

/-- The first loop of `_build_summary_token_jql`: append each element not
already present (no length cap). -/
def dedupAppend (sel : List String) (xs : List String) : List String :=
  xs.foldl (fun acc t => if acc.contains t then acc else acc ++ [t]) sel

/-- The second loop: append missing keywords, stopping once the list has
length ≥ 2 (checked before each element). -/
def fillLoop (sel : List String) : List String → List String
  | [] => sel
  | t :: rest =>
    if sel.length ≥ 2 then sel
    else if sel.contains t then fillLoop sel rest
    else fillLoop (sel ++ [t]) rest

/-- The `selected` list computed by `_build_summary_token_jql`. -/
def selectedTokens (text : String) : List String :=
  let keywords := keywordsOf text
  let strong := keywords.filter isStrongTok
  fillLoop (dedupAppend [] strong) keywords

/-- Python `_build_summary_token_jql` (the query uses `selected[:2]`). -/
def buildSummaryTokenJql (project text : String) : Option String :=
  let sel := selectedTokens text
  if sel = [] then none
  else
    let clauses := String.intercalate " AND "
      ((sel.take 2).map (fun t => "summary ~ \"" ++ escapeJql t ++ "\""))
    some ("project = \"" ++ escapeJql project ++ "\" AND " ++ clauses ++
      " AND status != \"Withdrawn\"")

/-- The exact-phrase JQL built inside `jira_find_existing_issue`. -/
def exactJql (project cand : String) : String :=
  "project = \"" ++ escapeJql project ++ "\" AND summary ~ \"" ++ escapeJql cand ++
    "\" AND status != \"Withdrawn\""

/-- A match of `^[A-Z]+-\d+\s*::\s*` (`re.sub` at the start of the title
candidate); returns the remainder after the match. -/
def stripKeyAux (l : List Char) : Option (List Char) :=
  let caps := l.takeWhile (fun c => 'A' ≤ c && c ≤ 'Z')
  if caps = [] then none
  else
    match l.drop caps.length with
    | '-' :: r2 =>
      let ds := takeDigits r2
      if ds = [] then none
      else
        match (r2.drop ds.length).dropWhile isSpaceChar with
        | ':' :: ':' :: r4 => some (r4.dropWhile isSpaceChar)
        | _ => none
    | _ => none

/-- The `title_candidate` computed by `jira_find_existing_issue`. -/
def titleCandidate (summary : String) : String :=
  let t := trimStr (replaceAll summary "Dependency update: " "")
  match stripKeyAux t.data with
  | some r => ⟨r⟩
  | none => t

/-! ### main.py: tracker state -/

/-- One remote link object (`{"object": {"url": ..., "title": ...}}`). -/
structure RemoteLink where
  url : String
  title : String

/-- An issue as returned by the search endpoint, with the requested fields
`key,summary,description` (the summary is never read).  An empty `key` models
a missing/None key (both are falsy in Python). -/
structure SearchIssue where
  key : String
  description : String

/-- The fields read through `jira_get_issue`.  An empty `status` models a
missing status name.  `linkSummaries` are the summaries of inward/outward
linked issues. -/
structure IssueFields where
  status : String := ""
  linkSummaries : List String := []
  labels : List String := []
  fixVersions : List String := []
  epic : Option String := none
  releaseApproach : Option (List (String × String)) := none

/-- The external tracker.  `searchResults` is the server-side full-text index:
a function of the issues' project/summary/status text only, so it is
unaffected by remote-link creation (the only mutation the embedded code
performs).  Transport is reliable. -/
structure JiraState where
  searchResults : String → List SearchIssue
  remoteLinks : List (String × RemoteLink)
  issueFields : String → Option IssueFields
  nextKey : String := "NEW-1"

/-- Append a remote link for an issue. -/
def JiraState.addLink (s : JiraState) (key prUrl : String) : JiraState :=
  { s with remoteLinks := s.remoteLinks ++ [(key, ⟨prUrl, "PR: " ++ prUrl⟩)] }

/-- Python `jira_get_issue` (reliable transport; the DRY-RUN sentinel guard). -/
def jiraGetIssue (a : AgentCfg) (s : JiraState) (key : String) : Option IssueFields :=
  if startsWithStr "DRY-RUN" key && !canMutateJira a then none
  else s.issueFields key

/-- The per-link check of `jira_issue_has_pr_link`'s remote-link loop. -/
def linkMatches (prUrl slug : String) (l : RemoteLink) : Bool :=
  ((prUrl ≠ "" : Bool) && occursIn prUrl l.url) ||
  ((slug ≠ "" : Bool) && occursIn slug l.url) ||
  ((slug ≠ "" : Bool) && occursIn slug l.title)

/-- The per-summary check of `jira_issue_has_pr_link`'s issue-link fallback. -/
def summaryMatches (prUrl slug : String) (sum : String) : Bool :=
  ((prUrl ≠ "" : Bool) && occursIn prUrl sum) ||
  ((slug ≠ "" : Bool) && occursIn slug sum)

def remoteLinksOf (s : JiraState) (key : String) : List RemoteLink :=
  s.remoteLinks.filterMap (fun p => if p.1 = key then some p.2 else none)

/-- Python `jira_issue_has_pr_link`, with the slug passed explicitly. -/
def hasPrLinkCore (a : AgentCfg) (s : JiraState) (key prUrl slug : String) : Bool :=
  if startsWithStr "DRY-RUN" key && !canMutateJira a then false
  else if (remoteLinksOf s key).any (linkMatches prUrl slug) then true
  else
    match jiraGetIssue a s key with
    | none => false
    | some f => f.linkSummaries.any (summaryMatches prUrl slug)

/-- Python `jira_issue_has_pr_link`. -/
def jiraIssueHasPrLink (a : AgentCfg) (s : JiraState) (key prUrl : String) : Bool :=
  hasPrLinkCore a s key prUrl (prSlug prUrl)

/-- Python `jira_add_pr_remotelink` (reliable transport: the POST succeeds). -/
def jiraAddPrRemotelink (a : AgentCfg) (s : JiraState) (key prUrl : String) :
    Bool × JiraState :=
  if prUrl = "" then (false, s)
  else if !canAddPrLinks a then (false, s)
  else if jiraIssueHasPrLink a s key prUrl then (false, s)
  else (true, s.addLink key prUrl)

/-- Python `jira_is_withdrawn`. -/
def jiraIsWithdrawn (a : AgentCfg) (s : JiraState) (key : String) : Bool :=
  if startsWithStr "DRY-RUN" key && !canMutateJira a then false
  else
    match s.issueFields key with
    | none => false
    | some f => lowerStr f.status = "withdrawn"

/-- Python `jira_get_status_name` (`(status.get("name") or "").strip()`). -/
def jiraGetStatusName (a : AgentCfg) (s : JiraState) (key : String) : String :=
  if startsWithStr "DRY-RUN" key && !canMutateJira a then ""
  else
    match s.issueFields key with
    | none => ""
    | some f => trimStr f.status

/-- Python `jira_has_skip_status` (`JIRA_SKIP_STATUSES` is stored lower-cased). -/
def jiraHasSkipStatus (a : AgentCfg) (s : JiraState) (key : String) : Bool :=
  let st := jiraGetStatusName a s key
  if st ≠ "" then a.skipStatuses.contains (lowerStr st) else false

/-- Python `jira_transition_issue_path`, returning the list of statuses passed to
`jira_transition_issue` (the attempted hops). -/
def jiraTransitionIssuePath (a : AgentCfg) (s : JiraState) (key : String)
    (statuses : List String) : List String :=
  if statuses = [] then []
  else if startsWithStr "DRY-RUN" key then []
  else
    let cur := jiraGetStatusName a s key
    match statuses.getLast? with
    | none => []
    | some last =>
      if cur ≠ "" && lowerStr cur = lowerStr last then []
      else if !canTransitionJira a then []
      else statuses

/-! ### main.py: reconciliation (`jira_ensure_ticket_fields`) -/

/-- Python `_jira_single_select_value`'s argument: None, a dict, or a string. -/
inductive RawSelect where
  | null : RawSelect
  | dict : List (String × String) → RawSelect
  | str : String → RawSelect

/-- Python `_jira_single_select_value`. -/
def jiraSingleSelectValue : RawSelect → Option (List (String × String))
  | .null => none
  | .dict d => some d
  | .str s =>
    let v := trimStr s
    if v = "" then none else some [("value", v)]

/-- Python `_jira_single_select_matches` (current must be a dict and agree with every
desired key). -/
def jiraSingleSelectMatches (current : Option (List (String × String)))
    (desired : List (String × String)) : Bool :=
  match current with
  | none => false
  | some cur => desired.all (fun kv => cur.lookup kv.1 = some kv.2)

/-- Code-point lexicographic order on strings (Python's string order). -/
def charListLe : List Char → List Char → Bool
  | [], _ => true
  | _ :: _, [] => false
  | a :: as, b :: bs => if a = b then charListLe as bs else decide (a < b)

def strLe (x y : String) : Bool := charListLe x.data y.data

/-- Insertion of a string into a sorted list (ascending). -/
def insertSorted (x : String) : List String → List String
  | [] => [x]
  | y :: ys => if strLe x y then x :: y :: ys else y :: insertSorted x ys

/-- Structural insertion sort (ascending), modelling Python's `sorted`. -/
def sortStrings : List String → List String
  | [] => []
  | x :: xs => insertSorted x (sortStrings xs)

/-- Python `sorted(current_labels | desired_labels_set)`: the set union, sorted. -/
def sortedUnion (a b : List String) : List String :=
  sortStrings ((a ++ b).dedup)

/-- The field diff computed by `jira_ensure_ticket_fields`. -/
structure UpdatesT where
  labels : Option (List String) := none
  fixVersions : Option (List String) := none
  epic : Option String := none
  releaseApproach : Option (List (String × String)) := none

def updatesEmpty (u : UpdatesT) : Bool :=
  u.labels.isNone && u.fixVersions.isNone && u.epic.isNone && u.releaseApproach.isNone

/-- Python `[v.get("name") for v in (fields.get("fixVersions") or []) if v.get("name")]`
(an empty string models a missing/falsy name). -/
def currentFixNames (f : IssueFields) : List String :=
  f.fixVersions.filter (fun v => v ≠ "")

/-- The pure diff computation of `jira_ensure_ticket_fields`. -/
def computeUpdates (f : IssueFields) (desiredLabels : List String) (fixVersion : String)
    (epicKey : String) (raField : String) (raValue : RawSelect) : UpdatesT :=
  let u0 : UpdatesT := {}
  let u1 :=
    if desiredLabels ≠ [] && !desiredLabels.all (fun l => f.labels.contains l) then
      { u0 with labels := some (sortedUnion f.labels desiredLabels) }
    else u0
  let u2 :=
    if fixVersion ≠ "" && !(currentFixNames f).contains fixVersion then
      { u1 with fixVersions := some (currentFixNames f ++ [fixVersion]) }
    else u1
  let u3 :=
    if epicKey ≠ "" && f.epic ≠ some epicKey then
      { u2 with epic := some epicKey }
    else u2
  match jiraSingleSelectValue raValue with
  | some d =>
    if raField ≠ "" && !jiraSingleSelectMatches f.releaseApproach d then
      { u3 with releaseApproach := some d }
    else u3
  | none => u3

/-- Python `jira_ensure_ticket_fields`: fetches the snapshot, computes the diff and
issues at most one update call (`some u` models the single
`jira_update_issue(issue_key, updates)` call, `none` no call at all). -/
def ensureTicketFields (a : AgentCfg) (s : JiraState) (key : String)
    (desiredLabels : List String) (fixVersion : String)
    (raField : String) (raValue : RawSelect) : Option UpdatesT :=
  match jiraGetIssue a s key with
  | none => none
  | some f =>
    let u := computeUpdates f desiredLabels fixVersion a.jiraEpicKey raField raValue
    if updatesEmpty u then none else some u

/-- Apply an update diff to the stored fields (the tracker's PUT). -/
def applyUpdates (f : IssueFields) (u : UpdatesT) : IssueFields :=
  { f with
    labels := u.labels.getD f.labels
    fixVersions := u.fixVersions.getD f.fixVersions
    epic := match u.epic with
      | some e => some e
      | none => f.epic
    releaseApproach := match u.releaseApproach with
      | some r => some r
      | none => f.releaseApproach }

/-- The tracker state after `jira_ensure_ticket_fields` (only mutated when the
run may mutate: otherwise `jira_update_issue` just logs). -/
def ensureTicketFieldsState (a : AgentCfg) (s : JiraState) (key : String)
    (desiredLabels : List String) (fixVersion : String)
    (raField : String) (raValue : RawSelect) : JiraState :=
  match jiraGetIssue a s key, ensureTicketFields a s key desiredLabels fixVersion raField raValue with
  | some f, some u =>
    if canMutateJira a then
      { s with issueFields := fun k => if k = key then some (applyUpdates f u) else s.issueFields k }
    else s
  | _, _ => s

/-! ### main.py: correlation (`jira_find_existing_issue`) -/

/-- The Python local `issue_key` after the exact-phrase issue loop ran over
`issues`: it keeps its previous value when the search returned nothing
(`none` = still unbound), else holds the last issue's key. -/
def varAfter (issues : List SearchIssue) (var : Option String) : Option String :=
  match issues.getLast? with
  | none => var
  | some i => some i.key

/-- The body of the exact-phrase candidate loop of `jira_find_existing_issue`
(lines 313–340).  `var` is the Python local `issue_key`, which *persists
across candidate iterations* (`none` = still unbound; referencing it then
raises a NameError that the surrounding `except` turns into "continue with the
next candidate").  The description check inside the issue loop only logs and
falls through — it never returns (this is the bug behind claim C1); after the
loop `issue_key` holds the last returned issue's key.  Returns
`(answer, new issue_key, new state)`. -/
def findCandStep (a : AgentCfg) (prUrl : String) (issues : List SearchIssue)
    (var : Option String) (s : JiraState) : Option String × Option String × JiraState :=
  if prUrl = "" then (none, varAfter issues var, s)
  else
    match varAfter issues var with
    | none => (none, none, s)
    | some k =>
      if k ≠ "" && a.fixTicketPrLinks && canAddPrLinks a then
        if (jiraAddPrRemotelink a s k prUrl).1 then
          (some k, some k, (jiraAddPrRemotelink a s k prUrl).2)
        else if jiraIssueHasPrLink a (jiraAddPrRemotelink a s k prUrl).2 k prUrl then
          (some k, some k, (jiraAddPrRemotelink a s k prUrl).2)
        else if (jiraAddPrRemotelink a (jiraAddPrRemotelink a s k prUrl).2 k prUrl).1 then
          (some k, some k,
           (jiraAddPrRemotelink a (jiraAddPrRemotelink a s k prUrl).2 k prUrl).2)
        else
          (none, some k,
           (jiraAddPrRemotelink a (jiraAddPrRemotelink a s k prUrl).2 k prUrl).2)
      else (none, some k, s)

/-- The `for cand in [c for c in jql_candidates if c]` loop. -/
def findCandsAux (a : AgentCfg) (project prUrl : String) :
    List String → Option String → JiraState → Option String × Option String × JiraState
  | [], var, s => (none, var, s)
  | cand :: rest, var, s =>
    match findCandStep a prUrl (s.searchResults (exactJql project cand)) var s with
    | (some k, v, s') => (some k, v, s')
    | (none, v, s') => findCandsAux a project prUrl rest v s'

/-- The token-fallback issue loop of `jira_find_existing_issue` (lines
353–372).  A description match returns the issue key (adding a remote link
first when `FIX_TICKET_PR_LINKS` is set, result ignored); otherwise an
existing link returns the key; otherwise (when `FIX_TICKET_PR_LINKS`) a
successful link creation returns the key; otherwise the next issue. -/
def findTokenAux (a : AgentCfg) (prUrl : String) :
    List SearchIssue → JiraState → Option String × JiraState
  | [], s => (none, s)
  | i :: rest, s =>
    if prUrl ≠ "" && occursIn prUrl i.description then
      ((if i.key = "" then none else some i.key),
       if i.key ≠ "" && a.fixTicketPrLinks then (jiraAddPrRemotelink a s i.key prUrl).2
       else s)
    else if prUrl ≠ "" && i.key ≠ "" && jiraIssueHasPrLink a s i.key prUrl then
      (some i.key, s)
    else if prUrl ≠ "" && i.key ≠ "" && a.fixTicketPrLinks then
      (if (jiraAddPrRemotelink a s i.key prUrl).1 then
        (some i.key, (jiraAddPrRemotelink a s i.key prUrl).2)
       else findTokenAux a prUrl rest (jiraAddPrRemotelink a s i.key prUrl).2)
    else findTokenAux a prUrl rest s

/-- Python `jira_find_existing_issue`, returning the optional key (Python `None` and
the falsy empty key both map to `none`) and the tracker state after the call. -/
def jiraFindExistingIssue (a : AgentCfg) (s : JiraState)
    (summary project prUrl : String) : Option String × JiraState :=
  match findCandsAux a project prUrl
      (([summary, titleCandidate summary].filter (fun c => c ≠ ""))) none s with
  | (some k, _, s') => (some k, s')
  | (none, _, s') =>
    match buildSummaryTokenJql project (titleCandidate summary) with
    | none => (none, s')
    | some q => findTokenAux a prUrl (s'.searchResults q) s'

/-! ### main.py: conversation scan (`pr_has_ticket_in_comments`) -/

/-- A match of `((?:CCD|HMC)-\d+)\b` (case-insensitive) starting exactly here,
returning the matched group. -/
def ticketKeyAt (l : List Char) : Option (List Char) :=
  match l with
  | a :: b :: c :: h :: rest =>
    if ((a.toLower = 'c' && b.toLower = 'c' && c.toLower = 'd') ||
        (a.toLower = 'h' && b.toLower = 'm' && c.toLower = 'c')) && h = '-' then
      let ds := takeDigits rest
      if ds = [] then none
      else if boundaryAfterL (rest.drop ds.length) then some (a :: b :: c :: '-' :: ds)
      else none
    else none
  | _ => none

def ticketScanAux (prev : Option Char) : List Char → Option (List Char)
  | [] => none
  | c :: rest =>
    match (if prevBoundaryB prev then ticketKeyAt (c :: rest) else none) with
    | some g => some g
    | none => ticketScanAux (some c) rest

/-- The per-comment search of `pr_has_ticket_in_comments`
(`m.group(1).upper()`). -/
def scanTicket (comment : String) : Option String :=
  (ticketScanAux none comment.data).map (fun g => upperStr ⟨g⟩)

/-- Python `pr_has_ticket_in_comments` over the comment bodies. -/
def prHasTicketInComments : List String → Option String
  | [] => none
  | cmt :: rest =>
    match scanTicket cmt with
    | some k => some k
    | none => prHasTicketInComments rest

/-! ### main.py: `process_pr` -/

/-- The repository configuration fields read by `process_pr` (after the merge
with defaults in `load_repo_config`). -/
structure RepoCfg where
  enabled : Bool := true
  requireLabels : List String := ["Renovate Dependencies"]
  legacyRequire : List String := []
  criticalDeps : List String := []
  createJiraFor : Option CreateFor := none
  jiraLabels : List String := ["CCD-BAU", "RENOVATE-PR", "GENERATED-BY-Agent"]
  project : String := "CCD"
  raField : String := ""
  raValue : RawSelect := .null
  commentToggle : Bool := true
  addLabelsToggle : Bool := true

/-- A pull-request snapshot (`PullRequestFact`). -/
structure PrData where
  title : String := ""
  body : String := ""
  state : String := "open"
  labels : List String := []
  htmlUrl : String := ""
  comments : List String := []

/-- The label gate of `process_pr`: passes when no labels are required or the
pull request carries one of them (all compared lower-cased). -/
def labelGatePasses (cfg : RepoCfg) (pr : PrData) : Bool :=
  let req := if cfg.requireLabels ≠ [] then cfg.requireLabels.map lowerStr
             else cfg.legacyRequire.map lowerStr
  let prLabels := pr.labels.map lowerStr
  req = [] || prLabels.any (fun l => req.contains l)

/-- Observable outcome of `process_pr`.  `result` is the Python return value;
`createCalled` records that `jira_create_issue` was invoked;
`ensureCalled` that `jira_ensure_ticket_fields` was invoked;
`transitionAttempts` the statuses handed to the transition machinery
(the GitHub-side comment/label/title side effects are I/O glue outside the
core, per the specification, and are not modelled). -/
structure ProcOut where
  result : Bool
  createCalled : Bool := false
  createdKey : Option String := none
  ensureCalled : Bool := false
  transitionAttempts : List String := []
  state : JiraState

/-- Python `process_pr`. -/
def processPr (a : AgentCfg) (cfg : RepoCfg) (pr : PrData) (s : JiraState) : ProcOut :=
  if !cfg.enabled then { result := false, state := s }
  else if pr.state ≠ "open" then { result := false, state := s }
  else if !labelGatePasses cfg pr then { result := false, state := s }
  else
    match needsJira pr.title pr.body pr.labels (some cfg.criticalDeps) cfg.createJiraFor with
    | (none, _) => { result := false, state := s }
    | (some _, _) =>
      let existing0 := prHasTicketInComments pr.comments
      let existing := match existing0 with
        | some k => if jiraIsWithdrawn a s k then none else some k
        | none => none
      match existing with
      | some k =>
        if jiraHasSkipStatus a s k then { result := false, state := s }
        else
          let s1 := if a.fixTicketLabels then
            ensureTicketFieldsState a s k cfg.jiraLabels a.jiraFixVersion cfg.raField cfg.raValue
            else s
          { result := false,
            ensureCalled := a.fixTicketLabels,
            state := s1 }
      | none =>
        let summary := "Dependency update: " ++ pr.title
        let found := jiraFindExistingIssue a s summary cfg.project pr.htmlUrl
        match found.1 with
        | some k =>
          if jiraHasSkipStatus a found.2 k then { result := false, state := found.2 }
          else
            let s1 := if a.fixTicketLabels then
              ensureTicketFieldsState a found.2 k cfg.jiraLabels a.jiraFixVersion cfg.raField cfg.raValue
              else found.2
            { result := false,
              ensureCalled := a.fixTicketLabels,
              state := s1 }
        | none =>
          let s1 := found.2
          let key := if a.mode = "dry-run" then "DRY-RUN-1" else s1.nextKey
          let s2 := if pr.htmlUrl ≠ "" && a.createPrLinks && canAddPrLinks a then
            (jiraAddPrRemotelink a s1 key pr.htmlUrl).2
            else s1
          let attempts :=
            if a.targetStatusPath ≠ [] then jiraTransitionIssuePath a s2 key a.targetStatusPath
            else if a.targetStatus ≠ "" then [a.targetStatus]
            else []
          { result := true,
            createCalled := true,
            createdKey := some key,
            transitionAttempts := attempts,
            state := s2 }

/-! ### main.py: the run loop of `main` -/

/-- Result of the scan loop of `main`.  `created` is the final value of
`created_count`; `processed` counts the pull requests actually handed to
`process_pr`; `stoppedEarly` records the `[STOP]` early return. -/
structure MainRes where
  created : Nat
  processed : Nat
  stoppedEarly : Bool

/-- The per-pull-request loop of `main`: each element is the outcome of
`process_pr` for one pull request, in order — `Except.error` models an
exception escaping `process_pr` (caught and logged by the loop),
`Except.ok b` its return value `b`.  The creation cap is checked only after a
creation, and reaching it returns from `main` normally. -/
def mainLoop (cap : Nat) : List (Except String Bool) → Nat → MainRes
  | [], count => ⟨count, 0, false⟩
  | o :: rest, count =>
    match o with
    | .error _ =>
      let r := mainLoop cap rest count
      ⟨r.created, r.processed + 1, r.stoppedEarly⟩
    | .ok created =>
      let count' := if created then count + 1 else count
      if created && decide (cap > 0) && decide (count' ≥ cap) then ⟨count', 1, true⟩
      else
        let r := mainLoop cap rest count'
        ⟨r.created, r.processed + 1, r.stoppedEarly⟩

/-- Loop of `main` starting from `created_count = 0`. -/
def runMain (cap : Nat) (outcomes : List (Except String Bool)) : MainRes :=
  mainLoop cap outcomes 0

/-! ## Theorems

### C9 — creation cap and per-pull-request error isolation -/

lemma mainLoop_cons_error (cap : Nat) (e : String) (rest : List (Except String Bool))
    (count : Nat) :
    mainLoop cap (Except.error e :: rest) count =
      ⟨(mainLoop cap rest count).created, (mainLoop cap rest count).processed + 1,
       (mainLoop cap rest count).stoppedEarly⟩ := by
  simp [mainLoop]

lemma mainLoop_cons_ok_false (cap : Nat) (rest : List (Except String Bool)) (count : Nat) :
    mainLoop cap (Except.ok false :: rest) count =
      ⟨(mainLoop cap rest count).created, (mainLoop cap rest count).processed + 1,
       (mainLoop cap rest count).stoppedEarly⟩ := by
  simp [mainLoop]

lemma mainLoop_cons_ok_true (cap : Nat) (rest : List (Except String Bool)) (count : Nat) :
    mainLoop cap (Except.ok true :: rest) count =
      if 0 < cap ∧ cap ≤ count + 1 then ⟨count + 1, 1, true⟩
      else ⟨(mainLoop cap rest (count + 1)).created,
            (mainLoop cap rest (count + 1)).processed + 1,
            (mainLoop cap rest (count + 1)).stoppedEarly⟩ := by
  by_cases h1 : 0 < cap <;> by_cases h2 : cap ≤ count + 1 <;>
    simp [mainLoop, h1, h2]

lemma mainLoop_created_le_cap (cap : Nat) :
    ∀ (os : List (Except String Bool)) (count : Nat), count < cap →
      (mainLoop cap os count).created ≤ cap
  | [], count, h => Nat.le_of_lt h
  | (Except.error e) :: rest, count, h => by
    rw [mainLoop_cons_error]
    exact mainLoop_created_le_cap cap rest count h
  | (Except.ok false) :: rest, count, h => by
    rw [mainLoop_cons_ok_false]
    exact mainLoop_created_le_cap cap rest count h
  | (Except.ok true) :: rest, count, h => by
    rw [mainLoop_cons_ok_true]
    by_cases hs : 0 < cap ∧ cap ≤ count + 1
    · rw [if_pos hs]
      show count + 1 ≤ cap
      omega
    · rw [if_neg hs]
      exact mainLoop_created_le_cap cap rest (count + 1) (by omega)

lemma mainLoop_stop_eq_cap (cap : Nat) :
    ∀ (os : List (Except String Bool)) (count : Nat), count < cap →
      (mainLoop cap os count).stoppedEarly = true →
      (mainLoop cap os count).created = cap
  | [], _, _, hstop => by simp [mainLoop] at hstop
  | (Except.error e) :: rest, count, h, hstop => by
    rw [mainLoop_cons_error] at hstop ⊢
    exact mainLoop_stop_eq_cap cap rest count h hstop
  | (Except.ok false) :: rest, count, h, hstop => by
    rw [mainLoop_cons_ok_false] at hstop ⊢
    exact mainLoop_stop_eq_cap cap rest count h hstop
  | (Except.ok true) :: rest, count, h, hstop => by
    rw [mainLoop_cons_ok_true] at hstop ⊢
    by_cases hs : 0 < cap ∧ cap ≤ count + 1
    · rw [if_pos hs]
      show count + 1 = cap
      omega
    · rw [if_neg hs] at hstop ⊢
      exact mainLoop_stop_eq_cap cap rest (count + 1) (by omega) hstop

lemma mainLoop_processed_all (cap : Nat) :
    ∀ (os : List (Except String Bool)) (count : Nat),
      (mainLoop cap os count).stoppedEarly = false →
      (mainLoop cap os count).processed = os.length
  | [], _, _ => by simp [mainLoop]
  | (Except.error e) :: rest, count, hrun => by
    rw [mainLoop_cons_error] at hrun ⊢
    simp only [List.length_cons]
    exact congrArg (· + 1) (mainLoop_processed_all cap rest count hrun)
  | (Except.ok false) :: rest, count, hrun => by
    rw [mainLoop_cons_ok_false] at hrun ⊢
    simp only [List.length_cons]
    exact congrArg (· + 1) (mainLoop_processed_all cap rest count hrun)
  | (Except.ok true) :: rest, count, hrun => by
    rw [mainLoop_cons_ok_true] at hrun ⊢
    by_cases hs : 0 < cap ∧ cap ≤ count + 1
    · rw [if_pos hs] at hrun
      exact absurd hrun (by simp)
    · rw [if_neg hs] at hrun ⊢
      simp only [List.length_cons]
      exact congrArg (· + 1) (mainLoop_processed_all cap rest (count + 1) hrun)

/-- C9: with a configured creation cap `N > 0`, the run creates at most `N`
tickets; when it stops early it does so as a clean stop exactly upon the
count reaching `N`; and when it does not stop early, every pull request is
processed — a single pull request's failure (an `Except.error` outcome, the
caught per-PR exception) never aborts the run. -/
theorem run_cap_and_isolation (cap : Nat) (outcomes : List (Except String Bool))
    (hcap : 0 < cap) :
    (runMain cap outcomes).created ≤ cap ∧
    ((runMain cap outcomes).stoppedEarly = true → (runMain cap outcomes).created = cap) ∧
    ((runMain cap outcomes).stoppedEarly = false →
      (runMain cap outcomes).processed = outcomes.length) :=
  ⟨mainLoop_created_le_cap cap outcomes 0 hcap,
   mainLoop_stop_eq_cap cap outcomes 0 hcap,
   mainLoop_processed_all cap outcomes 0⟩

/-- Witness for C9 at a concrete run: cap 2, with one failing pull request in
the middle; the run reaches the cap and stops cleanly. -/
theorem run_cap_and_isolation_witness :
    (runMain 2 [Except.ok true, Except.error "x", Except.ok true, Except.ok false]).created ≤ 2 ∧
    ((runMain 2 [Except.ok true, Except.error "x", Except.ok true, Except.ok false]).stoppedEarly = true →
      (runMain 2 [Except.ok true, Except.error "x", Except.ok true, Except.ok false]).created = 2) ∧
    ((runMain 2 [Except.ok true, Except.error "x", Except.ok true, Except.ok false]).stoppedEarly = false →
      (runMain 2 [Except.ok true, Except.error "x", Except.ok true, Except.ok false]).processed = 4) :=
  run_cap_and_isolation 2 [Except.ok true, Except.error "x", Except.ok true, Except.ok false]
    (by decide)

/-! ### C8 — status advancement along a path -/

/-- C8: for a non-empty status path, when the ticket's current status already
equals the path's final status (case-insensitively), zero transition calls are
performed; otherwise — for a real (non-sentinel) ticket on a mutating run —
every hop of the path is attempted in sequence. -/
theorem transition_path_behaviour (a : AgentCfg) (s : JiraState) (key : String)
    (statuses : List String) (last : String) (hlast : statuses.getLast? = some last) :
    (jiraGetStatusName a s key ≠ "" →
      lowerStr (jiraGetStatusName a s key) = lowerStr last →
      jiraTransitionIssuePath a s key statuses = []) ∧
    (¬(jiraGetStatusName a s key ≠ "" ∧
        lowerStr (jiraGetStatusName a s key) = lowerStr last) →
      canTransitionJira a = true → startsWithStr "DRY-RUN" key = false →
      jiraTransitionIssuePath a s key statuses = statuses) := by
  have hne : statuses ≠ [] := by
    intro h
    rw [h] at hlast
    simp at hlast
  constructor
  · intro h1 h2
    unfold jiraTransitionIssuePath
    rw [if_neg hne]
    by_cases hdry : startsWithStr "DRY-RUN" key = true
    · rw [if_pos hdry]
    · rw [if_neg hdry, hlast]
      have hcond : (jiraGetStatusName a s key ≠ "" && lowerStr (jiraGetStatusName a s key) = lowerStr last) = true := by
        simp [h1, h2]
      simp only [hcond, if_true]
  · intro hnot hcan hdry
    unfold jiraTransitionIssuePath
    rw [if_neg hne, if_neg (by simp [hdry]), hlast]
    have hcond : (jiraGetStatusName a s key ≠ "" && lowerStr (jiraGetStatusName a s key) = lowerStr last) = false := by
      by_cases he : jiraGetStatusName a s key = ""
      · simp [he]
      · simp only [Bool.and_eq_false_iff]
        right
        simp only [decide_eq_false_iff_not]
        intro heq
        exact hnot ⟨he, heq⟩
    simp only [hcond, Bool.false_eq_true, if_false, hcan, Bool.not_true, if_true]

/-- Witness for C8: the specification's scenario — path
`["In Progress", "Resume QA"]` with the ticket already at "Resume QA" makes
zero transition calls, while from "Open" on a mutating run every hop is
attempted. -/
theorem transition_path_behaviour_witness :
    jiraTransitionIssuePath { mode := "live" }
      { searchResults := fun _ => [], remoteLinks := [],
        issueFields := fun _ => some { status := "Resume QA" } }
      "CCD-1" ["In Progress", "Resume QA"] = [] ∧
    jiraTransitionIssuePath { mode := "live" }
      { searchResults := fun _ => [], remoteLinks := [],
        issueFields := fun _ => some { status := "Open" } }
      "CCD-1" ["In Progress", "Resume QA"] = ["In Progress", "Resume QA"] :=
  ⟨(transition_path_behaviour { mode := "live" }
      { searchResults := fun _ => [], remoteLinks := [],
        issueFields := fun _ => some { status := "Resume QA" } }
      "CCD-1" ["In Progress", "Resume QA"] "Resume QA" (by decide)).1
      (by decide) (by decide),
   (transition_path_behaviour { mode := "live" }
      { searchResults := fun _ => [], remoteLinks := [],
        issueFields := fun _ => some { status := "Open" } }
      "CCD-1" ["In Progress", "Resume QA"] "Resume QA" (by decide)).2
      (by decide) (by decide) (by decide)⟩

/-! ### C3 — reconciliation only ever adds -/

lemma mem_insertSorted {z x : String} : ∀ (l : List String),
    z ∈ insertSorted x l ↔ z = x ∨ z ∈ l
  | [] => by simp [insertSorted]
  | y :: ys => by
    unfold insertSorted
    by_cases h : strLe x y = true
    · simp [h]
    · simp only [h, Bool.false_eq_true, if_false, List.mem_cons,
        mem_insertSorted ys]
      tauto

lemma mem_sortStrings {z : String} : ∀ (l : List String),
    z ∈ sortStrings l ↔ z ∈ l
  | [] => Iff.rfl
  | x :: xs => by
    unfold sortStrings
    rw [mem_insertSorted, mem_sortStrings xs]
    simp

lemma mem_sortedUnion {x : String} {a b : List String} :
    x ∈ sortedUnion a b ↔ x ∈ a ∨ x ∈ b := by
  unfold sortedUnion
  rw [mem_sortStrings ((a ++ b).dedup), List.mem_dedup, List.mem_append]

/-- The effective labels after `jira_ensure_ticket_fields` ran: the diff's
labels when present, the untouched current labels otherwise. -/
def effectiveLabels (f : IssueFields) (u : UpdatesT) : List String :=
  u.labels.getD f.labels

/-- The effective fix-version names after the run. -/
def effectiveFixVersions (f : IssueFields) (u : UpdatesT) : List String :=
  u.fixVersions.getD (currentFixNames f)

/-- C3: reconciliation only ever adds.  For the snapshot the function fetched:
every current label is still present afterwards; when a labels diff is
computed it is exactly the union of current and desired; every (named)
current fix-version is still present afterwards; the desired fix-version is
appended only when absent (no diff otherwise); and the diff is applied as at
most a single update call, made exactly when the diff is non-empty. -/
theorem ensure_fields_adds_only (a : AgentCfg) (s : JiraState) (key : String)
    (dl : List String) (fv : String) (raf : String) (rav : RawSelect)
    (f : IssueFields) (hget : jiraGetIssue a s key = some f) :
    let u := computeUpdates f dl fv a.jiraEpicKey raf rav
    (∀ l ∈ f.labels, l ∈ effectiveLabels f u) ∧
    (∀ L, u.labels = some L → ∀ x, (x ∈ L ↔ x ∈ f.labels ∨ x ∈ dl)) ∧
    (∀ v ∈ currentFixNames f, v ∈ effectiveFixVersions f u) ∧
    (fv ∈ currentFixNames f → u.fixVersions = none) ∧
    (ensureTicketFields a s key dl fv raf rav =
      if updatesEmpty u then none else some u) := by
  intro u
  have hlabels : u.labels = none ∨
      u.labels = some (sortedUnion f.labels dl) := by
    unfold_let u
    unfold computeUpdates
    cases jiraSingleSelectValue rav <;>
      split <;> split <;> split <;> simp_all <;> split <;> simp_all
  have hfix : u.fixVersions = none ∨
      u.fixVersions = some (currentFixNames f ++ [fv]) := by
    unfold_let u
    unfold computeUpdates
    cases jiraSingleSelectValue rav <;>
      split <;> split <;> split <;> simp_all <;> split <;> simp_all
  refine ⟨?_, ?_, ?_, ?_, ?_⟩
  · intro l hl
    unfold effectiveLabels
    rcases hlabels with h | h
    · rw [h]
      exact hl
    · rw [h]
      simpa [mem_sortedUnion] using Or.inl hl
  · intro L hL x
    rcases hlabels with h | h
    · rw [h] at hL
      exact absurd hL (by simp)
    · rw [h] at hL
      cases hL
      exact mem_sortedUnion
  · intro v hv
    unfold effectiveFixVersions
    rcases hfix with h | h
    · rw [h]
      exact hv
    · rw [h]
      simpa using Or.inl hv
  · intro hmem
    unfold_let u
    unfold computeUpdates
    have : (fv ≠ "" && !(currentFixNames f).contains fv) = false := by
      simp only [Bool.and_eq_false_iff, Bool.not_eq_true']
      right
      simpa using hmem
    cases jiraSingleSelectValue rav <;>
      split <;> simp_all <;> split <;> simp_all <;> split <;> simp_all
  · unfold ensureTicketFields
    rw [hget]

/-- Concrete snapshot for the C3 witness: current labels `{"foo"}`. -/
def witnessFields : IssueFields := { labels := ["foo"], epic := some "CCD-7071" }

def witnessState : JiraState := {
  searchResults := fun _ => []
  remoteLinks := []
  issueFields := fun _ => some witnessFields }

/-- Witness for C3: desired labels `{"bar"}` over current `{"foo"}` — the
computed diff keeps "foo" and is exactly the union `{"bar", "foo"}`. -/
theorem ensure_fields_adds_only_witness :
    ("foo" ∈ effectiveLabels witnessFields
      (computeUpdates witnessFields ["bar"] "" "CCD-7071" "" RawSelect.null)) ∧
    (∀ x, x ∈ (["bar", "foo"] : List String) ↔
      x ∈ witnessFields.labels ∨ x ∈ (["bar"] : List String)) := by
  have h := ensure_fields_adds_only { mode := "live" } witnessState "CCD-1"
    ["bar"] "" "" RawSelect.null witnessFields (by rfl)
  exact ⟨h.1 "foo" (by simp [witnessFields]),
    fun x => h.2.1 ["bar", "foo"] (by decide) x⟩

/-! ### C6 — the token query builder -/

lemma dedupAppend_cons (sel : List String) (t : String) (ts : List String) :
    dedupAppend sel (t :: ts) =
      dedupAppend (if sel.contains t then sel else sel ++ [t]) ts := rfl

lemma mem_of_mem_dedupAppend {x : String} :
    ∀ (xs sel : List String), x ∈ dedupAppend sel xs → x ∈ sel ∨ x ∈ xs
  | [], _, h => Or.inl h
  | t :: ts, sel, h => by
    rw [dedupAppend_cons] at h
    rcases mem_of_mem_dedupAppend ts _ h with h' | h'
    · by_cases hc : sel.contains t
      · rw [if_pos hc] at h'
        exact Or.inl h'
      · rw [if_neg hc] at h'
        rcases List.mem_append.mp h' with h'' | h''
        · exact Or.inl h''
        · simp only [List.mem_singleton] at h''
          exact Or.inr (h'' ▸ List.mem_cons_self t ts)
    · exact Or.inr (List.mem_cons_of_mem t h')

lemma mem_dedupAppend_of_mem_sel {x : String} :
    ∀ (xs sel : List String), x ∈ sel → x ∈ dedupAppend sel xs
  | [], _, h => h
  | t :: ts, sel, h => by
    rw [dedupAppend_cons]
    apply mem_dedupAppend_of_mem_sel ts
    by_cases hc : sel.contains t
    · rwa [if_pos hc]
    · rw [if_neg hc]
      exact List.mem_append_left _ h

lemma mem_dedupAppend_of_mem {x : String} :
    ∀ (xs sel : List String), x ∈ xs → x ∈ dedupAppend sel xs
  | t :: ts, sel, h => by
    rw [dedupAppend_cons]
    rcases List.mem_cons.mp h with h' | h'
    · apply mem_dedupAppend_of_mem_sel ts
      by_cases hc : sel.contains t
      · rw [if_pos hc]
        subst h'
        simpa using hc
      · rw [if_neg hc]
        exact h' ▸ List.mem_append_right sel (List.mem_singleton.mpr rfl)
    · exact mem_dedupAppend_of_mem ts _ h'

lemma fillLoop_structure :
    ∀ (ks sel : List String), ∃ E, fillLoop sel ks = sel ++ E ∧
      ∀ x ∈ E, x ∈ ks ∧ ¬x ∈ sel
  | [], sel => ⟨[], by simp [fillLoop]⟩
  | t :: ts, sel => by
    unfold fillLoop
    by_cases h2 : sel.length ≥ 2
    · exact ⟨[], by simp [h2]⟩
    · rw [if_neg h2]
      by_cases hc : sel.contains t
      · rw [if_pos hc]
        obtain ⟨E, hE, hmem⟩ := fillLoop_structure ts sel
        exact ⟨E, hE, fun x hx => ⟨List.mem_cons_of_mem t (hmem x hx).1, (hmem x hx).2⟩⟩
      · rw [if_neg hc]
        obtain ⟨E, hE, hmem⟩ := fillLoop_structure ts (sel ++ [t])
        refine ⟨t :: E, ?_, ?_⟩
        · rw [hE, List.append_assoc]
          rfl
        · intro x hx
          rcases List.mem_cons.mp hx with h' | h'
          · subst h'
            exact ⟨List.mem_cons_self x ts, fun hmem' => hc (by simpa using hmem')⟩
          · have := hmem x h'
            exact ⟨List.mem_cons_of_mem t this.1,
              fun hx' => this.2 (List.mem_append_left _ hx')⟩

lemma selectedTokens_structure (text : String) :
    ∃ A E, selectedTokens text = A ++ E ∧
      (∀ x ∈ A, isStrongTok x = true) ∧
      (∀ x ∈ E, isStrongTok x = false) ∧
      (∀ x ∈ A ++ E, x ∈ keywordsOf text) := by
  unfold selectedTokens
  obtain ⟨E, hE, hmem⟩ :=
    fillLoop_structure (keywordsOf text) (dedupAppend [] ((keywordsOf text).filter isStrongTok))
  refine ⟨_, E, hE, ?_, ?_, ?_⟩
  · intro x hx
    rcases mem_of_mem_dedupAppend _ _ hx with h | h
    · simp at h
    · exact (List.mem_filter.mp h).2
  · intro x hx
    by_cases hs : isStrongTok x
    · exact absurd (mem_dedupAppend_of_mem _ []
        (List.mem_filter.mpr ⟨(hmem x hx).1, hs⟩)) (hmem x hx).2
    · simpa using hs
  · intro x hx
    rcases List.mem_append.mp hx with h | h
    · rcases mem_of_mem_dedupAppend _ _ h with h' | h'
      · simp at h'
      · exact (List.mem_filter.mp h').1
    · exact (hmem x h).1

/-- C6 (amended): the token query builder never selects a stop word, puts at
most two tokens in the query with all strong tokens ahead of all plain
tokens, returns no query when zero tokens survive the stop-word filter, and on
the text "renovate bot bumps log4j-core from 2.14 to 2.17 (action)" selects
the strong token "log4j-core" ahead of the plain token "renovate" (the
version fragments such as "2.17" are not tokens at all: the tokenizer splits
at dots and the remaining pieces are shorter than 3 characters). -/
theorem token_query_builder_props :
    (∀ text x, x ∈ selectedTokens text → stopWords.contains (lowerStr x) = false) ∧
    (∀ text, ((selectedTokens text).take 2).length ≤ 2) ∧
    (∀ text, ((selectedTokens text).take 2).filter isStrongTok ++
      ((selectedTokens text).take 2).filter (fun t => !isStrongTok t) =
      (selectedTokens text).take 2) ∧
    (∀ project text, keywordsOf text = [] → buildSummaryTokenJql project text = none) ∧
    (selectedTokens "renovate bot bumps log4j-core from 2.14 to 2.17 (action)" =
        ["log4j-core", "renovate"] ∧
      isStrongTok "log4j-core" = true ∧ isStrongTok "renovate" = false) := by
  refine ⟨?_, ?_, ?_, ?_, by decide⟩
  · intro text x hx
    obtain ⟨A, E, hAE, _, _, hkey⟩ := selectedTokens_structure text
    have hx' : x ∈ keywordsOf text := hkey x (hAE ▸ hx)
    have := (List.mem_filter.mp hx').2
    simpa using this
  · intro text
    simp [List.length_take]
  · intro text
    obtain ⟨A, E, hAE, hA, hE, _⟩ := selectedTokens_structure text
    rw [hAE, List.take_append_eq_append_take]
    have h1 : (A.take 2).filter isStrongTok = A.take 2 :=
      List.filter_eq_self.mpr (fun a ha => hA a (List.mem_of_mem_take ha))
    have h2 : (E.take (2 - A.length)).filter isStrongTok = [] :=
      List.filter_eq_nil_iff.mpr (fun a ha => by
        simp [hE a (List.mem_of_mem_take ha)])
    have h3 : (A.take 2).filter (fun t => !isStrongTok t) = [] :=
      List.filter_eq_nil_iff.mpr (fun a ha => by
        simp [hA a (List.mem_of_mem_take ha)])
    have h4 : (E.take (2 - A.length)).filter (fun t => !isStrongTok t) =
        E.take (2 - A.length) :=
      List.filter_eq_self.mpr (fun a ha => by
        simp [hE a (List.mem_of_mem_take ha)])
    rw [List.filter_append, List.filter_append, h1, h2, h3, h4,
      List.append_nil, List.nil_append]
  · intro project text hk
    unfold buildSummaryTokenJql
    have : selectedTokens text = [] := by
      unfold selectedTokens
      rw [hk]
      simp [List.filter_nil, fillLoop, dedupAppend]
    rw [this]
    rfl

/-- Witness for C6: the selected strong token is not a stop word, and a text
whose only alphanumeric runs are stop words or too short yields no query. -/
theorem token_query_builder_props_witness :
    stopWords.contains
      (lowerStr "log4j-core") = false ∧
    buildSummaryTokenJql "CCD" "to" = none :=
  ⟨token_query_builder_props.1 "renovate bot bumps log4j-core from 2.14 to 2.17 (action)"
      "log4j-core" (by decide),
   token_query_builder_props.2.2.2.1 "CCD" "to" (by decide)⟩

/-- Counterexample for C6 as stated: on the specification's example text the
builder does **not** select "2.17" (it is not even a token); the selected
tokens are exactly `["log4j-core", "renovate"]`, and "2.17" does not occur in
the generated query. -/
theorem token_query_counterexample :
    ¬("2.17" ∈ selectedTokens "renovate bot bumps log4j-core from 2.14 to 2.17 (action)") ∧
    occursIn "2.17"
      ((buildSummaryTokenJql "CCD" "renovate bot bumps log4j-core from 2.14 to 2.17 (action)").getD "")
      = false := by
  constructor
  · decide
  · decide

/-! ### C2 — the version-range check uses only the leftmost range token -/

/-- The claim-side predicate "the text contains (anywhere) a version-range
token whose leading integers differ": a differing pair at **any** position. -/
def existsDifferingRangeAux (prev : Option Char) : List Char → Bool
  | [] => false
  | c :: rest =>
    (prevBoundaryB prev &&
      (match rangeMatchAt (c :: rest) with
       | some p => decide (p.1 ≠ p.2)
       | none => false)) || existsDifferingRangeAux (some c) rest

def existsDifferingRange (s : String) : Bool := existsDifferingRangeAux none s.data

lemma isMajorBump_of_rangeScan {title body : String} {p : Nat × Nat}
    (h : rangeScan (lowerStr (title ++ " " ++ body)).data = some p)
    (hne : p.1 ≠ p.2) : isMajorBump title body = true := by
  obtain ⟨a, b⟩ := p
  simp only [ne_eq] at hne
  unfold isMajorBump
  by_cases h1 : anyWordAux ["major".data, "breaking".data, "migration".data] none
      (lowerStr (title ++ " " ++ body)).data = true
  · simp [h1]
  · by_cases h2 : updateEqMajorAux none (lowerStr (title ++ " " ++ body)).data = true
    · simp [h1, h2]
    · cases htv : toVersionScanAux none (lowerStr title).data with
      | some n =>
        by_cases hn : n > 1
        · simp [h1, h2, htv, hn]
        · simp [h1, h2, htv, hn, h, hne]
      | none => simp [h1, h2, htv, h, hne]

/-- C2 (amended): the version-range check of `is_major_bump` inspects only the
**leftmost** range token of the combined lower-cased text (`re.search` returns
the first match and its groups are compared once).  Whenever that leftmost
token has differing leading integers — with the security branch not firing and
the major toggle enabled — classification returns "major"; and a text whose
only range token is "2.9.3 -> 2.9.9" (equal leading versions) yields no
category.  A later differing pair cannot trigger when an earlier equal-leading
pair precedes it (see the counterexample). -/
theorem classify_major_leftmost_range (title body : String) (labels : List String)
    (cds : Option (List String)) (cfor : Option CreateFor) (p : Nat × Nat)
    (hsec : (securityTrigger title body labels && securityToggle cfor) = false)
    (hmaj : majorToggle cfor = true)
    (hscan : rangeScan (lowerStr (title ++ " " ++ body)).data = some p)
    (hne : p.1 ≠ p.2) :
    needsJira title body labels cds cfor =
      (some "major", some "Semver-major or breaking change detected") ∧
    needsJira "" "2.9.3 -> 2.9.9" [] none none = (none, none) := by
  constructor
  · unfold needsJira
    rw [hsec, isMajorBump_of_rangeScan hscan hne, hmaj]
    rfl
  · decide

/-- Witness for C2: "2.9.3 -> 3.2.3" classifies as "major" while
"2.9.3 -> 2.9.9" yields no category. -/
theorem classify_major_leftmost_range_witness :
    needsJira "" "2.9.3 -> 3.2.3" [] none none =
      (some "major", some "Semver-major or breaking change detected") ∧
    needsJira "" "2.9.3 -> 2.9.9" [] none none = (none, none) :=
  classify_major_leftmost_range "" "2.9.3 -> 3.2.3" [] none none (2, 3)
    (by decide) (by decide) (by decide) (by decide)

/-- Counterexample for C2 as stated: the text "1.0 -> 1.2 and 2.0 -> 3.0"
contains a differing-version range token ("2.0 -> 3.0"), the major toggle is
enabled and nothing else triggers, yet classification returns no category,
because `re.search` only examines the first range token "1.0 -> 1.2". -/
theorem classify_any_range_counterexample :
    existsDifferingRange (lowerStr ("" ++ " " ++ "1.0 -> 1.2 and 2.0 -> 3.0")) = true ∧
    majorToggle
      (some { security := some true, major := some true, criticalDep := some false }) =
      true ∧
    securityTrigger "" "1.0 -> 1.2 and 2.0 -> 3.0" [] = false ∧
    needsJira "" "1.0 -> 1.2 and 2.0 -> 3.0" [] none
      (some { security := some true, major := some true, criticalDep := some false }) =
      (none, none) := by
  refine ⟨by decide, by decide, by decide, by decide⟩

/-! ### C7 — CVE / security classification

A CVE identifier never spans the space that `needs_jira` inserts between
title and body, so a match in the combined text lies wholly inside the title
or wholly inside the body.  The following lemmas make that precise. -/

lemma takeWhile_append_stop {p : Char → Bool} {d : Char} (hd : p d = false) :
    ∀ (x b : List Char), (x ++ d :: b).takeWhile p = x.takeWhile p
  | [], b => by simp [List.takeWhile_cons, hd]
  | c :: x, b => by
    by_cases hc : p c
    · simp [List.takeWhile_cons, hc, takeWhile_append_stop hd x b]
    · simp [List.takeWhile_cons, hc]

lemma takeDigits_append_space (x b : List Char) :
    takeDigits (x ++ ' ' :: b) = takeDigits x :=
  takeWhile_append_stop (by decide) x b

lemma takeDigits_length_le : ∀ l : List Char, (takeDigits l).length ≤ l.length
  | [] => Nat.le_refl 0
  | c :: l => by
    unfold takeDigits
    rw [List.takeWhile_cons]
    by_cases hc : c.isDigit
    · simpa [hc] using takeDigits_length_le l
    · simp [hc]

lemma boundaryAfterL_append_space (y b : List Char) :
    boundaryAfterL (y ++ ' ' :: b) = boundaryAfterL y := by
  cases y with
  | nil => simp +decide [boundaryAfterL, isWordChar]
  | cons c t => simp [boundaryAfterL]

lemma cveTailOK_append_space {x b : List Char}
    (h : cveTailOK (x ++ ' ' :: b) = true) : cveTailOK x = true := by
  unfold cveTailOK at h ⊢
  rw [Bool.and_eq_true] at h
  obtain ⟨h4, hrest⟩ := h
  rw [takeDigits_append_space] at h4
  have hx4 : 4 ≤ x.length := by
    have hle := takeDigits_length_le x
    simp only [decide_eq_true_eq] at h4
    omega
  rw [List.drop_append_of_le_length hx4] at hrest
  rw [Bool.and_eq_true, decide_eq_true_eq]
  refine ⟨by simpa using h4, ?_⟩
  cases hd : x.drop 4 with
  | nil =>
    rw [hd] at hrest
    simp +decide at hrest
  | cons h' rest' =>
    rw [hd] at hrest
    simp only [List.cons_append] at hrest
    rw [Bool.and_eq_true] at hrest
    obtain ⟨hdash, hin⟩ := hrest
    rw [takeDigits_append_space] at hin
    rw [List.drop_append_of_le_length (takeDigits_length_le rest'),
      boundaryAfterL_append_space] at hin
    rw [Bool.and_eq_true]
    exact ⟨hdash, hin⟩

lemma cveAt_append_space (x b : List Char)
    (h : cveAt (x ++ ' ' :: b) = true) : cveAt x = true := by
  unfold cveAt at h ⊢
  rw [Bool.and_eq_true] at h
  obtain ⟨h3, hrest⟩ := h
  match x with
  | [] => simp +decide at h3
  | [a] => simp +decide [List.take_succ_cons] at h3
  | [a, c2] => simp +decide [List.take_succ_cons] at h3
  | a :: c2 :: c3 :: x' =>
    simp only [List.cons_append, List.take_succ_cons, List.drop_succ_cons,
      List.take_zero, List.drop_zero] at h3 hrest ⊢
    rw [Bool.and_eq_true]
    refine ⟨h3, ?_⟩
    cases hx' : x' with
    | nil =>
      rw [hx'] at hrest
      simp +decide at hrest
    | cons h' rest' =>
      rw [hx'] at hrest
      simp only [List.cons_append] at hrest
      rw [Bool.and_eq_true] at hrest
      rw [Bool.and_eq_true]
      exact ⟨hrest.1, cveTailOK_append_space hrest.2⟩

lemma mentionsCVEAux_cons (prev : Option Char) (c : Char) (rest : List Char) :
    mentionsCVEAux prev (c :: rest) =
      ((prevBoundaryB prev && cveAt (c :: rest)) || mentionsCVEAux (some c) rest) := rfl

lemma prevBoundaryB_eq_of_nonword (p q : Option Char)
    (hp : prevBoundaryB p = true) (hq : prevBoundaryB q = true) :
    ∀ l, mentionsCVEAux p l = mentionsCVEAux q l
  | [] => rfl
  | c :: rest => by
    unfold mentionsCVEAux
    rw [hp, hq]

lemma mentionsCVEAux_append_space {b : List Char} :
    ∀ (t : List Char) (prev : Option Char),
      mentionsCVEAux prev (t ++ ' ' :: b) = true →
      mentionsCVEAux prev t = true ∨ mentionsCVEAux (some ' ') b = true
  | [], prev => by
    intro h
    rw [List.nil_append, mentionsCVEAux_cons, Bool.or_eq_true] at h
    rcases h with h | h
    · rw [Bool.and_eq_true] at h
      have : cveAt (' ' :: b) = true := h.2
      unfold cveAt at this
      simp +decide at this
    · exact Or.inr h
  | c :: t, prev => by
    intro h
    rw [List.cons_append, mentionsCVEAux_cons, Bool.or_eq_true] at h
    rcases h with h | h
    · rw [Bool.and_eq_true] at h
      left
      rw [mentionsCVEAux_cons, Bool.or_eq_true]
      exact Or.inl (by
        rw [Bool.and_eq_true]
        exact ⟨h.1, cveAt_append_space (c :: t) b (by simpa using h.2)⟩)
    · rcases mentionsCVEAux_append_space t (some c) h with h' | h'
      · left
        rw [mentionsCVEAux_cons, Bool.or_eq_true]
        exact Or.inr h'
      · exact Or.inr h'

/-- A CVE match in `title ++ " " ++ body` lies inside the title or the body. -/
lemma mentionsCVE_split {t b : String}
    (h : mentionsCVE (t ++ " " ++ b) = true) :
    mentionsCVE t = true ∨ mentionsCVE b = true := by
  unfold mentionsCVE at h ⊢
  have hdata : (t ++ " " ++ b).data = t.data ++ ' ' :: b.data := by
    simp [String.data_append]
  rw [hdata] at h
  rcases mentionsCVEAux_append_space t.data none h with h' | h'
  · exact Or.inl h'
  · exact Or.inr (by
      rw [prevBoundaryB_eq_of_nonword none (some ' ')
        (by decide) (by decide) b.data]
      exact h')

/-- C7: whenever the combined title-and-body text contains a well-formed CVE
identifier (any casing), or the label set contains "security"
case-insensitively, and the security-creation toggle is enabled,
classification returns ("security", "Security / CVE detected"). -/
theorem classify_security_cve (title body : String) (labels : List String)
    (cds : Option (List String)) (cfor : Option CreateFor)
    (htrig : mentionsCVE (title ++ " " ++ body) = true ∨
      (labels.map lowerStr).contains "security" = true)
    (htog : securityToggle cfor = true) :
    needsJira title body labels cds cfor =
      (some "security", some "Security / CVE detected") := by
  have htrigger : securityTrigger title body labels = true := by
    unfold securityTrigger
    rcases htrig with h | h
    · rcases mentionsCVE_split h with h' | h' <;> simp [h']
    · simp only [h, Bool.or_true]
  unfold needsJira
  rw [htrigger, htog]
  rfl

/-- Witness for C7: a lower-cased CVE identifier in the body with default
toggles. -/
theorem classify_security_cve_witness :
    needsJira "bump log4j" "fixes cve-2021-44228" [] none none =
      (some "security", some "Security / CVE detected") :=
  classify_security_cve "bump log4j" "fixes cve-2021-44228" [] none none
    (Or.inl (by decide)) (by decide)

/-! ### C10 — the `_pr_slug` doubled-backslash pattern -/

/-- The claim-side behaviour of `jira_issue_has_pr_link` for backslash-free
URLs: a remote link is recognised only when the full `pr_url` is a substring
of the link's URL (and the issue-link fallback only when it is a substring of
a linked issue's summary) — the slug branches contribute nothing. -/
def hasPrLinkUrlOnly (a : AgentCfg) (s : JiraState) (key prUrl : String) : Bool :=
  if startsWithStr "DRY-RUN" key && !canMutateJira a then false
  else if (remoteLinksOf s key).any
      (fun l => (prUrl ≠ "" : Bool) && occursIn prUrl l.url) then true
  else
    match jiraGetIssue a s key with
    | none => false
    | some f => f.linkSummaries.any (fun sum => (prUrl ≠ "" : Bool) && occursIn prUrl sum)

lemma prSlugMatchAt_backslash {l g : List Char}
    (h : prSlugMatchAt l = some g) : '\\' ∈ l := by
  unfold prSlugMatchAt at h
  split at h
  case h_1 c0 c1 c2 c3 c4 c5 c6 c7 c8 c9 c10 c11 rest =>
    split at h
    case isTrue hcond =>
      simp only [Bool.and_eq_true, decide_eq_true_eq] at hcond
      have h6 : c6 = '\\' := by tauto
      subst h6
      simp
    case isFalse hcond => exact absurd h (by simp)
  case h_2 => exact absurd h (by simp)

lemma prSlugAux_eq_none : ∀ {l : List Char}, ¬ '\\' ∈ l → prSlugAux l = none
  | [], _ => rfl
  | c :: rest, h => by
    unfold prSlugAux
    cases hm : prSlugMatchAt (c :: rest) with
    | some g => exact absurd (prSlugMatchAt_backslash hm) h
    | none => exact prSlugAux_eq_none (fun hmem => h (List.mem_cons_of_mem c hmem))

/-- C10: for every URL with no literal backslash (hence every real GitHub
pull-request URL), `_pr_slug` returns the empty string — its regex, written
with doubled backslashes inside a raw string, demands a literal backslash —
and consequently `jira_issue_has_pr_link` recognises a link only via the full
`pr_url` substring checks (the slug branches never fire). -/
theorem pr_slug_regex_bug (a : AgentCfg) (s : JiraState) (key prUrl : String)
    (h : ¬ '\\' ∈ prUrl.data) :
    prSlug prUrl = "" ∧
    jiraIssueHasPrLink a s key prUrl = hasPrLinkUrlOnly a s key prUrl := by
  have hslug : prSlug prUrl = "" := by
    unfold prSlug
    rw [prSlugAux_eq_none h]
  refine ⟨hslug, ?_⟩
  unfold jiraIssueHasPrLink
  rw [hslug]
  unfold hasPrLinkCore hasPrLinkUrlOnly
  have hlm : linkMatches prUrl "" = fun l => (prUrl ≠ "" : Bool) && occursIn prUrl l.url := by
    funext l
    simp [linkMatches]
  have hsm : summaryMatches prUrl "" = fun sum => (prUrl ≠ "" : Bool) && occursIn prUrl sum := by
    funext sum
    simp [summaryMatches]
  rw [hlm, hsm]

def slugWitnessState : JiraState := {
  searchResults := fun _ => []
  remoteLinks := [("CCD-9", ⟨"https://github.com/org/repo/pull/5", "PR: x"⟩)]
  issueFields := fun _ => none }

/-- Witness for C10 at a real GitHub pull-request URL. -/
theorem pr_slug_regex_bug_witness :
    prSlug "https://github.com/org/repo/pull/5" = "" ∧
    jiraIssueHasPrLink { mode := "live" } slugWitnessState "CCD-9"
        "https://github.com/org/repo/pull/5" =
      hasPrLinkUrlOnly { mode := "live" } slugWitnessState "CCD-9"
        "https://github.com/org/repo/pull/5" :=
  pr_slug_regex_bug { mode := "live" } slugWitnessState "CCD-9"
    "https://github.com/org/repo/pull/5" (by decide)

/-! ### C4 — a withdrawn explicit-reference ticket never blocks creation -/

/-- C4: when the conversation scan finds a key whose tracker status is
"Withdrawn", `process_pr` discards it and continues: it proceeds to the
tracker search, and when nothing confirms an existing ticket it invokes
ticket creation (and reports a creation). -/
theorem withdrawn_comment_key_discarded (a : AgentCfg) (cfg : RepoCfg) (pr : PrData)
    (s : JiraState) (k cat : String) (r : Option String)
    (hen : cfg.enabled = true)
    (hopen : pr.state = "open")
    (hlab : labelGatePasses cfg pr = true)
    (hclass : needsJira pr.title pr.body pr.labels (some cfg.criticalDeps)
      cfg.createJiraFor = (some cat, r))
    (hscan : prHasTicketInComments pr.comments = some k)
    (hwd : jiraIsWithdrawn a s k = true)
    (hfind : (jiraFindExistingIssue a s ("Dependency update: " ++ pr.title)
      cfg.project pr.htmlUrl).1 = none) :
    (processPr a cfg pr s).createCalled = true ∧
    (processPr a cfg pr s).result = true := by
  unfold processPr
  rw [hen, hopen, hlab]
  simp only [Bool.not_true, Bool.false_eq_true, if_false, ne_eq, not_true_eq_false,
    hclass, hscan, hwd, if_true, hfind]
  exact ⟨trivial, trivial⟩

def withdrawnWitnessPr : PrData := {
  title := "CVE-2024-1234 bump"
  htmlUrl := "https://github.com/o/r/pull/9"
  comments := ["see CCD-10"] }

def withdrawnWitnessState : JiraState := {
  searchResults := fun _ => []
  remoteLinks := []
  issueFields := fun key => if key = "CCD-10" then some { status := "Withdrawn" } else none }

/-- Witness for C4: the spec's end-to-end scenario — a comment referencing a
withdrawn ticket, an empty search, and creation is invoked. -/
theorem withdrawn_comment_key_discarded_witness :
    (processPr { mode := "live" } { requireLabels := [] } withdrawnWitnessPr
      withdrawnWitnessState).createCalled = true ∧
    (processPr { mode := "live" } { requireLabels := [] } withdrawnWitnessPr
      withdrawnWitnessState).result = true :=
  withdrawn_comment_key_discarded { mode := "live" } { requireLabels := [] }
    withdrawnWitnessPr withdrawnWitnessState "CCD-10" "security"
    (some "Security / CVE detected") rfl rfl (by decide) (by decide) (by decide)
    (by decide) (by decide)

/-! ### C1 — the exact-phrase loop never returns on a description match -/

/-- Tracker state for C1: the exact-phrase search for the full summary
returns one issue whose description contains the pull-request URL verbatim;
every other query returns nothing. -/
def c1State : JiraState := {
  searchResults := fun q =>
    if q = exactJql "CCD" "Dependency update: bump libx" then
      [⟨"CCD-77", "Renovate PR: https://github.com/org/repo/pull/1 tracked"⟩]
    else []
  remoteLinks := []
  issueFields := fun _ => none }

/-- C1 (code bug): the exact-phrase candidate loop of
`jira_find_existing_issue` logs a description match but falls through without
returning, so — with `FIX_TICKET_PR_LINKS` unset — an issue whose description
contains the pull-request URL verbatim is **not** returned: the search comes
back with one such issue, yet the function returns `None` and the caller
proceeds to create a duplicate.  (The parallel token-fallback loop at lines
353–363 returns the key on the same evidence, which is the claimed and
evidently intended behaviour.) -/
theorem find_exact_description_bug :
    (c1State.searchResults (exactJql "CCD" "Dependency update: bump libx") =
      [⟨"CCD-77", "Renovate PR: https://github.com/org/repo/pull/1 tracked"⟩]) ∧
    occursIn "https://github.com/org/repo/pull/1"
      "Renovate PR: https://github.com/org/repo/pull/1 tracked" = true ∧
    (jiraFindExistingIssue { mode := "live", fixTicketPrLinks := false } c1State
      "Dependency update: bump libx" "CCD" "https://github.com/org/repo/pull/1").1 =
      none :=
  ⟨rfl, by decide, by decide⟩

/-! ### C5 — idempotence of `jira_find_existing_issue`

Between two runs nobody else touches the tracker; the first run's only
mutation is remote-link creation, which does not change the full-text search
index, issue fields or statuses.  We show the second run returns the same
optional key as the first. -/

lemma leadsWith_refl : ∀ l : List Char, leadsWith l l = true
  | [] => rfl
  | c :: rest => by simp [leadsWith, leadsWith_refl rest]

lemma occursIn_self (x : String) : occursIn x x = true := by
  unfold occursIn
  cases hx : x.data with
  | nil => simp [occursInL, leadsWith]
  | cons c rest =>
    unfold occursInL
    rw [Bool.or_eq_true]
    exact Or.inl (leadsWith_refl _)

lemma canMutate_of_canAdd {a : AgentCfg} (h : canAddPrLinks a = true) :
    canMutateJira a = true := by
  unfold canAddPrLinks at h
  unfold canMutateJira
  rw [h, Bool.true_or]

lemma addLink_searchResults (s : JiraState) (k p : String) :
    (s.addLink k p).searchResults = s.searchResults := rfl

lemma addLink_issueFields (s : JiraState) (k p : String) :
    (s.addLink k p).issueFields = s.issueFields := rfl

lemma jiraGetIssue_addLink (a : AgentCfg) (s : JiraState) (k p key : String) :
    jiraGetIssue a (s.addLink k p) key = jiraGetIssue a s key := rfl

lemma remoteLinksOf_addLink_self (s : JiraState) (k p : String) :
    remoteLinksOf (s.addLink k p) k = remoteLinksOf s k ++ [⟨p, "PR: " ++ p⟩] := by
  unfold remoteLinksOf JiraState.addLink
  rw [List.filterMap_append]
  simp

lemma remoteLinksOf_addLink_other {k' k : String} (hne : k' ≠ k)
    (s : JiraState) (p : String) :
    remoteLinksOf (s.addLink k p) k' = remoteLinksOf s k' := by
  unfold remoteLinksOf JiraState.addLink
  rw [List.filterMap_append]
  simp [Ne.symm hne]

/-- A failed `jira_add_pr_remotelink` leaves the tracker untouched. -/
lemma addRemotelink_fail {a : AgentCfg} {s : JiraState} {k p : String}
    (h : (jiraAddPrRemotelink a s k p).1 = false) :
    (jiraAddPrRemotelink a s k p).2 = s := by
  unfold jiraAddPrRemotelink at h ⊢
  split <;> [rfl; skip]
  split <;> [rfl; skip]
  split <;> [rfl; simp_all]

/-- A successful `jira_add_pr_remotelink` appends exactly the new link, and
can only happen when the link was missing and the run may add links. -/
lemma addRemotelink_success {a : AgentCfg} {s : JiraState} {k p : String}
    (h : (jiraAddPrRemotelink a s k p).1 = true) :
    (jiraAddPrRemotelink a s k p).2 = s.addLink k p ∧
    jiraIssueHasPrLink a s k p = false ∧ p ≠ "" ∧ canAddPrLinks a = true := by
  unfold jiraAddPrRemotelink at h ⊢
  split at h
  · simp at h
  · split at h
    · simp at h
    · split at h
      · simp at h
      · rename_i h1 h2 h3
        refine ⟨?_, by simpa using h3, h1, by simpa using h2⟩
        rw [if_neg h1, if_neg h2, if_neg h3]

/-- The exact shape of `jira_add_pr_remotelink` when it can and must add. -/
lemma addRemotelink_adds {a : AgentCfg} {s : JiraState} {k p : String}
    (hp : p ≠ "") (hA : canAddPrLinks a = true)
    (hno : jiraIssueHasPrLink a s k p = false) :
    jiraAddPrRemotelink a s k p = (true, s.addLink k p) := by
  unfold jiraAddPrRemotelink
  rw [if_neg hp, if_neg (by simp [hA]), if_neg (by simp [hno])]

/-- The exact shape of `jira_add_pr_remotelink` when the link already exists. -/
lemma addRemotelink_noop {a : AgentCfg} {s : JiraState} {k p : String}
    (hhas : jiraIssueHasPrLink a s k p = true) :
    jiraAddPrRemotelink a s k p = (false, s) := by
  unfold jiraAddPrRemotelink
  split <;> [rfl; skip]
  split <;> [rfl; skip]
  simp [hhas]

/-- After adding the link, the issue has the link. -/
lemma hasPrLink_addLink_self {a : AgentCfg} {s : JiraState} {k p : String}
    (hp : p ≠ "") (hA : canAddPrLinks a = true) :
    jiraIssueHasPrLink a (s.addLink k p) k p = true := by
  unfold jiraIssueHasPrLink hasPrLinkCore
  rw [if_neg (by simp [canMutate_of_canAdd hA])]
  have hany : (remoteLinksOf (s.addLink k p) k).any (linkMatches p (prSlug p)) = true := by
    rw [remoteLinksOf_addLink_self, List.any_append]
    simp only [Bool.or_eq_true]
    right
    simp only [List.any_cons, List.any_nil, Bool.or_false]
    unfold linkMatches
    simp only [Bool.or_eq_true, Bool.and_eq_true]
    left
    left
    exact ⟨by simpa using hp, occursIn_self p⟩
  rw [if_pos hany]

/-- Adding a link for one issue does not affect link evidence for another. -/
lemma hasPrLink_addLink_other {a : AgentCfg} {s : JiraState} {k k' p q : String}
    (hne : k' ≠ k) :
    jiraIssueHasPrLink a (s.addLink k p) k' q = jiraIssueHasPrLink a s k' q := by
  unfold jiraIssueHasPrLink hasPrLinkCore
  rw [remoteLinksOf_addLink_other hne, jiraGetIssue_addLink]

/-- Equation: a candidate step with unbound `issue_key` (NameError path). -/
lemma findCandStep_unbound {a : AgentCfg} {pr : String} {issues : List SearchIssue}
    {var : Option String} {s : JiraState} (hP : pr ≠ "")
    (hv : varAfter issues var = none) :
    findCandStep a pr issues var s = (none, none, s) := by
  unfold findCandStep
  simp only [hv, hP, if_false]

/-- Equation: a candidate step whose `issue_key` is bound. -/
lemma findCandStep_bound {a : AgentCfg} {pr : String} {issues : List SearchIssue}
    {var : Option String} {s : JiraState} {k : String} (hP : pr ≠ "")
    (hv : varAfter issues var = some k) :
    findCandStep a pr issues var s =
      if (decide (k ≠ "") && a.fixTicketPrLinks && canAddPrLinks a) = true then
        if (jiraAddPrRemotelink a s k pr).1 = true then
          (some k, some k, (jiraAddPrRemotelink a s k pr).2)
        else if jiraIssueHasPrLink a (jiraAddPrRemotelink a s k pr).2 k pr = true then
          (some k, some k, (jiraAddPrRemotelink a s k pr).2)
        else if (jiraAddPrRemotelink a (jiraAddPrRemotelink a s k pr).2 k pr).1 = true then
          (some k, some k,
           (jiraAddPrRemotelink a (jiraAddPrRemotelink a s k pr).2 k pr).2)
        else
          (none, some k,
           (jiraAddPrRemotelink a (jiraAddPrRemotelink a s k pr).2 k pr).2)
      else (none, some k, s) := by
  unfold findCandStep
  rw [if_neg hP, hv]

/-- On a mutating run with link creation enabled (`MUT`): one exact-phrase
candidate step either skips (unbound or empty `issue_key`, state untouched) or
answers with a non-empty key that afterwards carries the PR link. -/
lemma candStep_cases {a : AgentCfg} {pr : String}
    (hF : a.fixTicketPrLinks = true) (hA : canAddPrLinks a = true) (hP : pr ≠ "")
    (issues : List SearchIssue) (var : Option String) (s : JiraState) :
    (findCandStep a pr issues var s = (none, varAfter issues var, s) ∧
      (varAfter issues var = none ∨ varAfter issues var = some "")) ∨
    (∃ k, k ≠ "" ∧ varAfter issues var = some k ∧
      ((findCandStep a pr issues var s = (some k, some k, s) ∧
          jiraIssueHasPrLink a s k pr = true) ∨
       (findCandStep a pr issues var s = (some k, some k, s.addLink k pr) ∧
          jiraIssueHasPrLink a s k pr = false))) := by
  cases hv : varAfter issues var with
  | none => exact Or.inl ⟨findCandStep_unbound hP hv, Or.inl rfl⟩
  | some k =>
    by_cases hk : k = ""
    · subst hk
      refine Or.inl ⟨?_, Or.inr rfl⟩
      rw [findCandStep_bound hP hv]
      simp
    · rw [findCandStep_bound hP hv]
      rw [if_pos (by simp [hk, hF, hA])]
      by_cases hhas : jiraIssueHasPrLink a s k pr = true
      · rw [addRemotelink_noop hhas]
        simp only [Bool.false_eq_true, if_false]
        rw [if_pos hhas]
        exact Or.inr ⟨k, hk, rfl, Or.inl ⟨rfl, hhas⟩⟩
      · have hno : jiraIssueHasPrLink a s k pr = false := by
          simpa using hhas
        rw [addRemotelink_adds hP hA hno]
        simp only [if_true]
        exact Or.inr ⟨k, hk, rfl, Or.inr ⟨rfl, hno⟩⟩

/-- Replaying a skipping step at any state still skips with the same
`issue_key` and leaves the state untouched. -/
lemma candStep_replay_skip {a : AgentCfg} {pr : String} (hP : pr ≠ "")
    {issues : List SearchIssue} {var : Option String}
    (hv : varAfter issues var = none ∨ varAfter issues var = some "")
    (t : JiraState) :
    findCandStep a pr issues var t = (none, varAfter issues var, t) := by
  rcases hv with hv | hv
  · rw [findCandStep_unbound hP hv, hv]
  · rw [findCandStep_bound hP hv, hv]
    simp

/-- Replaying an answering step at a state that already carries the PR link
answers with the same key and leaves the state untouched. -/
lemma candStep_replay_hit {a : AgentCfg} {pr : String}
    (hF : a.fixTicketPrLinks = true) (hA : canAddPrLinks a = true) (hP : pr ≠ "")
    {issues : List SearchIssue} {var : Option String} {k : String}
    (hk : k ≠ "") (hv : varAfter issues var = some k)
    (t : JiraState) (hhas : jiraIssueHasPrLink a t k pr = true) :
    findCandStep a pr issues var t = (some k, some k, t) := by
  rw [findCandStep_bound hP hv]
  rw [if_pos (by simp [hk, hF, hA])]
  rw [addRemotelink_noop hhas]
  simp only [Bool.false_eq_true, if_false]
  rw [if_pos hhas]

lemma findCandsAux_cons_some {a : AgentCfg} {project pr cand : String}
    {rest : List String} {var v : Option String} {s s' : JiraState} {k : String}
    (h : findCandStep a pr (s.searchResults (exactJql project cand)) var s =
      (some k, v, s')) :
    findCandsAux a project pr (cand :: rest) var s = (some k, v, s') := by
  unfold findCandsAux
  rw [h]

lemma findCandsAux_cons_none {a : AgentCfg} {project pr cand : String}
    {rest : List String} {var v : Option String} {s s' : JiraState}
    (h : findCandStep a pr (s.searchResults (exactJql project cand)) var s =
      (none, v, s')) :
    findCandsAux a project pr (cand :: rest) var s =
      findCandsAux a project pr rest v s' := by
  show (match findCandStep a pr (s.searchResults (exactJql project cand)) var s with
    | (some k, v, s') => (some k, v, s')
    | (none, v, s') => findCandsAux a project pr rest v s') =
    findCandsAux a project pr rest v s'
  rw [h]

/-- The exact-phrase candidate loop under `MUT`: either it answers nothing and
leaves the state untouched (and replays identically from any state with the
same search index), or it answers a non-empty key that afterwards carries the
PR link, having added at most that one link — and replays the same answer from
any state with the same search index that carries the link. -/
lemma candsAux_cases {a : AgentCfg} {project pr : String}
    (hF : a.fixTicketPrLinks = true) (hA : canAddPrLinks a = true) (hP : pr ≠ "") :
    ∀ (cands : List String) (var : Option String) (s : JiraState),
    ((findCandsAux a project pr cands var s).1 = none ∧
     (findCandsAux a project pr cands var s).2.2 = s ∧
     (∀ t, t.searchResults = s.searchResults →
       findCandsAux a project pr cands var t =
         (none, (findCandsAux a project pr cands var s).2.1, t))) ∨
    (∃ k, (findCandsAux a project pr cands var s).1 = some k ∧ k ≠ "" ∧
      jiraIssueHasPrLink a (findCandsAux a project pr cands var s).2.2 k pr = true ∧
      ((findCandsAux a project pr cands var s).2.2 = s ∨
       (findCandsAux a project pr cands var s).2.2 = s.addLink k pr) ∧
      (∀ t, t.searchResults = s.searchResults →
        jiraIssueHasPrLink a t k pr = true →
        (findCandsAux a project pr cands var t).1 = some k))
  | [], var, s => by
    left
    refine ⟨rfl, rfl, ?_⟩
    intro t hsr
    rfl
  | cand :: rest, var, s => by
    rcases candStep_cases hF hA hP (s.searchResults (exactJql project cand)) var s with
      ⟨hstep, hvv⟩ | ⟨k, hk, hv, hcase⟩
    · rw [findCandsAux_cons_none hstep]
      rcases candsAux_cases hF hA hP rest (varAfter (s.searchResults (exactJql project cand)) var) s with
        ⟨h1, h2, h3⟩ | ⟨k, h1, hk, h2, h3, h4⟩
      · left
        refine ⟨h1, h2, ?_⟩
        intro t hsr
        have hstept : findCandStep a pr (t.searchResults (exactJql project cand)) var t =
            (none, varAfter (s.searchResults (exactJql project cand)) var, t) := by
          rw [hsr]
          exact candStep_replay_skip hP hvv t
        rw [findCandsAux_cons_none hstept]
        exact h3 t hsr
      · right
        refine ⟨k, h1, hk, h2, h3, ?_⟩
        intro t hsr hhast
        have hstept : findCandStep a pr (t.searchResults (exactJql project cand)) var t =
            (none, varAfter (s.searchResults (exactJql project cand)) var, t) := by
          rw [hsr]
          exact candStep_replay_skip hP hvv t
        rw [findCandsAux_cons_none hstept]
        exact h4 t hsr hhast
    · rcases hcase with ⟨hstep, hhas⟩ | ⟨hstep, hno⟩
      · right
        rw [findCandsAux_cons_some hstep]
        refine ⟨k, rfl, hk, hhas, Or.inl rfl, ?_⟩
        intro t hsr hhast
        have hstept : findCandStep a pr (t.searchResults (exactJql project cand)) var t =
            (some k, some k, t) := by
          rw [hsr]
          exact candStep_replay_hit hF hA hP hk hv t hhast
        rw [findCandsAux_cons_some hstept]
      · right
        rw [findCandsAux_cons_some hstep]
        refine ⟨k, rfl, hk, hasPrLink_addLink_self hP hA, Or.inr rfl, ?_⟩
        intro t hsr hhast
        have hstept : findCandStep a pr (t.searchResults (exactJql project cand)) var t =
            (some k, some k, t) := by
          rw [hsr]
          exact candStep_replay_hit hF hA hP hk hv t hhast
        rw [findCandsAux_cons_some hstept]

lemma findTokenAux_cons (a : AgentCfg) (pr : String) (i : SearchIssue)
    (rest : List SearchIssue) (s : JiraState) :
    findTokenAux a pr (i :: rest) s =
      (if (decide (pr ≠ "") && occursIn pr i.description) = true then
        ((if i.key = "" then none else some i.key),
         if (decide (i.key ≠ "") && a.fixTicketPrLinks) = true then
           (jiraAddPrRemotelink a s i.key pr).2
         else s)
      else if (decide (pr ≠ "") && decide (i.key ≠ "") &&
          jiraIssueHasPrLink a s i.key pr) = true then
        (some i.key, s)
      else if (decide (pr ≠ "") && decide (i.key ≠ "") && a.fixTicketPrLinks) = true then
        (if (jiraAddPrRemotelink a s i.key pr).1 = true then
          (some i.key, (jiraAddPrRemotelink a s i.key pr).2)
         else findTokenAux a pr rest (jiraAddPrRemotelink a s i.key pr).2)
      else findTokenAux a pr rest s) := rfl

/-- The token-fallback loop under `MUT`: either it answers nothing and leaves
the state untouched (replaying identically from any state), or it answers some
key having added at most one link, and replays the same answer from its own
final state. -/
lemma tokenAux_cases {a : AgentCfg} {pr : String}
    (hF : a.fixTicketPrLinks = true) (hA : canAddPrLinks a = true) (hP : pr ≠ "") :
    ∀ (issues : List SearchIssue) (s : JiraState),
    ((findTokenAux a pr issues s).1 = none ∧ (findTokenAux a pr issues s).2 = s ∧
      (∀ t, findTokenAux a pr issues t = (none, t))) ∨
    (∃ k, (findTokenAux a pr issues s).1 = some k ∧
      ((findTokenAux a pr issues s).2 = s ∨
        (findTokenAux a pr issues s).2 = s.addLink k pr) ∧
      (findTokenAux a pr issues ((findTokenAux a pr issues s).2)).1 = some k)
  | [], s => by
    left
    exact ⟨rfl, rfl, fun t => rfl⟩
  | i :: rest, s => by
    by_cases hdesc : occursIn pr i.description = true
    · by_cases hk : i.key = ""
      · left
        have hbody : ∀ u : JiraState, findTokenAux a pr (i :: rest) u = (none, u) := by
          intro u
          rw [findTokenAux_cons]
          rw [if_pos (by simp [hP, hdesc])]
          rw [hk]
          simp
        exact ⟨by rw [hbody s], by rw [hbody s], hbody⟩
      · right
        have hbody : ∀ u : JiraState, findTokenAux a pr (i :: rest) u =
            (some i.key, (jiraAddPrRemotelink a u i.key pr).2) := by
          intro u
          rw [findTokenAux_cons]
          rw [if_pos (by simp [hP, hdesc])]
          rw [if_neg (by simp [hk]), if_pos (by simp [hk, hF])]
        refine ⟨i.key, by rw [hbody s], ?_, by rw [hbody ((findTokenAux a pr (i :: rest) s).2), hbody s]⟩
        by_cases hadd : (jiraAddPrRemotelink a s i.key pr).1 = true
        · rw [hbody s]
          exact Or.inr (addRemotelink_success hadd).1
        · rw [hbody s]
          exact Or.inl (addRemotelink_fail (by simpa using hadd))
    · have hdesc' : occursIn pr i.description = false := by simpa using hdesc
      by_cases hk : i.key = ""
      · have hbody : ∀ u : JiraState, findTokenAux a pr (i :: rest) u =
            findTokenAux a pr rest u := by
          intro u
          rw [findTokenAux_cons]
          rw [if_neg (by simp [hdesc']), if_neg (by simp [hk]), if_neg (by simp [hk])]
        rcases tokenAux_cases hF hA hP rest s with ⟨h1, h2, h3⟩ | ⟨k, h1, h2, h3⟩
        · left
          exact ⟨by rw [hbody s]; exact h1, by rw [hbody s]; exact h2,
            fun t => by rw [hbody t]; exact h3 t⟩
        · right
          refine ⟨k, by rw [hbody s]; exact h1, by rw [hbody s]; exact h2, ?_⟩
          rw [hbody s, hbody ((findTokenAux a pr rest s).2)]
          exact h3
      · by_cases hhas : jiraIssueHasPrLink a s i.key pr = true
        · right
          have hbody : findTokenAux a pr (i :: rest) s = (some i.key, s) := by
            rw [findTokenAux_cons]
            rw [if_neg (by simp [hdesc']), if_pos (by simp [hP, hk, hhas])]
          refine ⟨i.key, by rw [hbody], Or.inl (by rw [hbody]), ?_⟩
          rw [hbody]
          rw [hbody]
        · right
          have hno : jiraIssueHasPrLink a s i.key pr = false := by simpa using hhas
          have hbody : findTokenAux a pr (i :: rest) s =
              (some i.key, s.addLink i.key pr) := by
            rw [findTokenAux_cons]
            rw [if_neg (by simp [hdesc']), if_neg (by simp [hno]),
              if_pos (by simp [hP, hk, hF])]
            rw [addRemotelink_adds hP hA hno]
            simp
          refine ⟨i.key, by rw [hbody], Or.inr (by rw [hbody]), ?_⟩
          rw [hbody]
          have hhas2 : jiraIssueHasPrLink a (s.addLink i.key pr) i.key pr = true :=
            hasPrLink_addLink_self hP hA
          rw [findTokenAux_cons]
          rw [if_neg (by simp [hdesc']), if_pos (by simp [hP, hk, hhas2])]

/-- Python `jira_add_pr_remotelink` is a no-op on a non-mutating run. -/
lemma addRemotelink_noAdd {a : AgentCfg} {s : JiraState} {k p : String}
    (hA : canAddPrLinks a = false) :
    jiraAddPrRemotelink a s k p = (false, s) := by
  unfold jiraAddPrRemotelink
  split
  · rfl
  · rw [if_pos (by simp [hA])]

/-- Without `MUT` (no link creation possible), one candidate step never
changes the tracker. -/
lemma candStep_state_noMut {a : AgentCfg} {pr : String}
    (hNM : ¬(a.fixTicketPrLinks = true ∧ canAddPrLinks a = true ∧ pr ≠ ""))
    (issues : List SearchIssue) (var : Option String) (s : JiraState) :
    (findCandStep a pr issues var s).2.2 = s := by
  by_cases hPe : pr = ""
  · unfold findCandStep
    rw [if_pos hPe]
  · cases hv : varAfter issues var with
    | none => rw [findCandStep_unbound hPe hv]
    | some k =>
      rw [findCandStep_bound hPe hv]
      rw [if_neg ?hg]
      case hg =>
        intro hg
        simp only [Bool.and_eq_true, decide_eq_true_eq] at hg
        exact hNM ⟨hg.1.2, hg.2, hPe⟩

/-- Without `MUT`, the candidate loop never changes the tracker. -/
lemma candsAux_state_noMut {a : AgentCfg} (project : String) {pr : String}
    (hNM : ¬(a.fixTicketPrLinks = true ∧ canAddPrLinks a = true ∧ pr ≠ "")) :
    ∀ (cands : List String) (var : Option String) (s : JiraState),
      (findCandsAux a project pr cands var s).2.2 = s
  | [], var, s => rfl
  | cand :: rest, var, s => by
    rcases hstep : findCandStep a pr (s.searchResults (exactJql project cand)) var s with
      ⟨ans, v, s'⟩
    have hs' : s' = s := by
      have := candStep_state_noMut hNM (s.searchResults (exactJql project cand)) var s
      rw [hstep] at this
      exact this
    cases ans with
    | some k =>
      rw [findCandsAux_cons_some hstep]
      exact hs'
    | none =>
      rw [findCandsAux_cons_none hstep, hs']
      exact candsAux_state_noMut project hNM rest v s

/-- Without `MUT`, the token loop never changes the tracker. -/
lemma tokenAux_state_noMut {a : AgentCfg} {pr : String}
    (hNM : ¬(a.fixTicketPrLinks = true ∧ canAddPrLinks a = true ∧ pr ≠ "")) :
    ∀ (issues : List SearchIssue) (s : JiraState),
      (findTokenAux a pr issues s).2 = s
  | [], _ => rfl
  | i :: rest, s => by
    by_cases hPe : pr = ""
    · rw [findTokenAux_cons]
      rw [if_neg (by simp [hPe]), if_neg (by simp [hPe]), if_neg (by simp [hPe])]
      exact tokenAux_state_noMut hNM rest s
    · have hFA : ¬(a.fixTicketPrLinks = true ∧ canAddPrLinks a = true) :=
        fun hfa => hNM ⟨hfa.1, hfa.2, hPe⟩
      have hadd : jiraAddPrRemotelink a s i.key pr = (false, s) ∨
          a.fixTicketPrLinks = false := by
        by_cases hF : a.fixTicketPrLinks = true
        · have hA : canAddPrLinks a = false := by
            by_cases hA' : canAddPrLinks a = true
            · exact absurd ⟨hF, hA'⟩ hFA
            · simpa using hA'
          exact Or.inl (addRemotelink_noAdd hA)
        · exact Or.inr (by simpa using hF)
      rw [findTokenAux_cons]
      by_cases hdesc : occursIn pr i.description = true
      · rw [if_pos (by simp [hPe, hdesc])]
        show (if (decide (i.key ≠ "") && a.fixTicketPrLinks) = true then
          (jiraAddPrRemotelink a s i.key pr).2 else s) = s
        rcases hadd with hadd | hadd
        · by_cases hguard : (decide (i.key ≠ "") && a.fixTicketPrLinks) = true
          · rw [if_pos hguard, hadd]
          · rw [if_neg hguard]
        · rw [if_neg (by simp [hadd])]
      · rw [if_neg (by simp [hdesc])]
        by_cases hhas : (decide (pr ≠ "") && decide (i.key ≠ "") &&
            jiraIssueHasPrLink a s i.key pr) = true
        · rw [if_pos hhas]
        · rw [if_neg hhas]
          rcases hadd with hadd | hadd
          · by_cases hguard : (decide (pr ≠ "") && decide (i.key ≠ "") &&
                a.fixTicketPrLinks) = true
            · rw [if_pos hguard, hadd]
              simp only [Bool.false_eq_true, if_false]
              exact tokenAux_state_noMut hNM rest s
            · rw [if_neg hguard]
              exact tokenAux_state_noMut hNM rest s
          · rw [if_neg (by simp [hadd])]
            exact tokenAux_state_noMut hNM rest s

/-- Without `MUT`, the whole search leaves the tracker untouched. -/
lemma find_state_noMut {a : AgentCfg} {summary project pr : String}
    (hNM : ¬(a.fixTicketPrLinks = true ∧ canAddPrLinks a = true ∧ pr ≠ ""))
    (s : JiraState) :
    (jiraFindExistingIssue a s summary project pr).2 = s := by
  unfold jiraFindExistingIssue
  rcases hC : findCandsAux a project pr
      (([summary, titleCandidate summary].filter (fun c => c ≠ ""))) none s with
    ⟨ans, v, s'⟩
  have hs' : s' = s := by
    have h2 := candsAux_state_noMut project hNM
      (([summary, titleCandidate summary].filter (fun c => c ≠ ""))) none s
    rw [hC] at h2
    exact h2
  cases ans with
  | some k => simpa using hs'
  | none =>
    cases htok : buildSummaryTokenJql project (titleCandidate summary) with
    | none => simpa using hs'
    | some q =>
      show (findTokenAux a pr (s'.searchResults q) s').2 = s
      rw [hs']
      exact tokenAux_state_noMut hNM (s.searchResults q) s

set_option maxHeartbeats 2000000 in
/-- Under `MUT`, one full search either finds nothing and leaves the state
unchanged (and would do so from any state with the same search index), or
finds a key that a second search from the post-state finds again. -/
lemma find_characterize {a : AgentCfg} {pr : String} (summary project : String)
    (hF : a.fixTicketPrLinks = true) (hA : canAddPrLinks a = true) (hP : pr ≠ "")
    (s : JiraState) :
    (jiraFindExistingIssue a s summary project pr = (none, s) ∧
      (∀ t, t.searchResults = s.searchResults →
        jiraFindExistingIssue a t summary project pr = (none, t))) ∨
    (∃ k, (jiraFindExistingIssue a s summary project pr).1 = some k ∧
      (jiraFindExistingIssue a
        (jiraFindExistingIssue a s summary project pr).2 summary project pr).1 =
        some k) := by
  rcases candsAux_cases hF hA hP
      (([summary, titleCandidate summary].filter (fun c => c ≠ ""))) none s with
    ⟨h1, h2, h3⟩ | ⟨k, h1, hk, hhas, hrel, hreplay⟩
  · -- the exact-phrase loop found nothing and left the state alone
    cases htok : buildSummaryTokenJql project (titleCandidate summary) with
    | none =>
      left
      have hgen : ∀ t, t.searchResults = s.searchResults →
          jiraFindExistingIssue a t summary project pr = (none, t) := by
        intro t hsr
        unfold jiraFindExistingIssue
        rw [h3 t hsr]
        show (match buildSummaryTokenJql project (titleCandidate summary) with
          | none => ((none : Option String), t)
          | some q => findTokenAux a pr (t.searchResults q) t) = (none, t)
        rw [htok]
      exact ⟨hgen s rfl, hgen⟩
    | some q =>
      rcases tokenAux_cases hF hA hP (s.searchResults q) s with
        ⟨t1, t2, t3⟩ | ⟨k, t1, t2, t3⟩
      · left
        have hgen : ∀ t, t.searchResults = s.searchResults →
            jiraFindExistingIssue a t summary project pr = (none, t) := by
          intro t hsr
          unfold jiraFindExistingIssue
          rw [h3 t hsr]
          show (match buildSummaryTokenJql project (titleCandidate summary) with
            | none => ((none : Option String), t)
            | some q' => findTokenAux a pr (t.searchResults q') t) = (none, t)
          rw [htok, hsr]
          exact t3 t
        exact ⟨hgen s rfl, hgen⟩
      · right
        have hfind1 : jiraFindExistingIssue a s summary project pr =
            findTokenAux a pr (s.searchResults q) s := by
          unfold jiraFindExistingIssue
          rw [h3 s rfl]
          show (match buildSummaryTokenJql project (titleCandidate summary) with
            | none => ((none : Option String), s)
            | some q' => findTokenAux a pr (s.searchResults q') s) =
            findTokenAux a pr (s.searchResults q) s
          rw [htok]
        refine ⟨k, by rw [hfind1]; exact t1, ?_⟩
        rw [hfind1]
        have hsr : (findTokenAux a pr (s.searchResults q) s).2.searchResults =
            s.searchResults := by
          rcases t2 with h | h
          · rw [h]
          · rw [h, addLink_searchResults]
        unfold jiraFindExistingIssue
        rw [h3 _ hsr]
        show (match buildSummaryTokenJql project (titleCandidate summary) with
          | none => ((none : Option String), (findTokenAux a pr (s.searchResults q) s).2)
          | some q' => findTokenAux a pr
              (((findTokenAux a pr (s.searchResults q) s).2).searchResults q')
              ((findTokenAux a pr (s.searchResults q) s).2)).1 = some k
        rw [htok]
        show (findTokenAux a pr
          (((findTokenAux a pr (s.searchResults q) s).2).searchResults q)
          ((findTokenAux a pr (s.searchResults q) s).2)).1 = some k
        rw [hsr]
        exact t3
  · -- the exact-phrase loop answered `k`
    right
    have hfind1 : jiraFindExistingIssue a s summary project pr =
        (some k, (findCandsAux a project pr
          (([summary, titleCandidate summary].filter (fun c => c ≠ ""))) none s).2.2) := by
      unfold jiraFindExistingIssue
      rcases hC : findCandsAux a project pr
          (([summary, titleCandidate summary].filter (fun c => c ≠ ""))) none s with
        ⟨ans, v, s2⟩
      have hans : ans = some k := by rw [hC] at h1; exact h1
      subst hans
      show ((some k : Option String), s2) = (some k, ((some k : Option String), v, s2).2.2)
      rfl
    refine ⟨k, by rw [hfind1], ?_⟩
    rw [hfind1]
    have hsr : ((findCandsAux a project pr
        (([summary, titleCandidate summary].filter (fun c => c ≠ ""))) none s).2.2).searchResults =
        s.searchResults := by
      rcases hrel with h | h
      · rw [h]
      · rw [h, addLink_searchResults]
    have hrun2 := hreplay _ hsr hhas
    unfold jiraFindExistingIssue
    rcases hC2 : findCandsAux a project pr
        (([summary, titleCandidate summary].filter (fun c => c ≠ "")))
        none ((findCandsAux a project pr
          (([summary, titleCandidate summary].filter (fun c => c ≠ ""))) none s).2.2) with
      ⟨ans2, v2, s3⟩
    have hans2 : ans2 = some k := by rw [hC2] at hrun2; exact hrun2
    subst hans2
    rfl

/-- C5: correlation is idempotent.  With the tracker otherwise unchanged
between the runs (the first run's own remote-link additions persist, nothing
else moves), running `jira_find_existing_issue` twice with the same inputs
returns the same optional ticket key both times. -/
theorem find_existing_idempotent (a : AgentCfg) (s : JiraState)
    (summary project pr : String) :
    (jiraFindExistingIssue a (jiraFindExistingIssue a s summary project pr).2
      summary project pr).1 =
    (jiraFindExistingIssue a s summary project pr).1 := by
  by_cases hM : a.fixTicketPrLinks = true ∧ canAddPrLinks a = true ∧ pr ≠ ""
  · obtain ⟨hF, hA, hP⟩ := hM
    rcases find_characterize summary project hF hA hP s with ⟨h1, _⟩ | ⟨k, h1, h2⟩
    · simp only [h1]
    · rw [h1, h2]
  · rw [find_state_noMut hM s]

end RenovateJira
